import Mathlib

/-!
Verification development for the zentalk-api messaging gateway.
The Go sources under pkg/api (server handlers, database layer) are embedded
shallowly: SQL tables become lists of row structures, handlers become pure
functions from a server state to a new state plus observable effects, and
calls into external libraries (relay transport, DHT, crypto, time formatting)
are made explicit as oracle parameters or spec-modelled primitives.
-/

namespace Zentalk

/-! ### ASCII string helpers

Go string operations used by the gateway (strings.ToLower, strings.HasPrefix,
strings.TrimSpace, slicing); implemented over the character list of a string
so that all definitions reduce in the kernel. Addresses and usernames in this
code base are ASCII, where these agree with the Go byte-level functions. -/

def lowerChar (c : Char) : Char :=
  if c.toNat ≥ 65 && c.toNat ≤ 90 then Char.ofNat (c.toNat + 32) else c

def strLower (s : String) : String := String.mk (s.data.map lowerChar)

def strLen (s : String) : Nat := s.data.length

def strStartsWith (s t : String) : Bool := t.data.isPrefixOf s.data

def strTakeN (s : String) (n : Nat) : String := String.mk (s.data.take n)

def strDropN (s : String) (n : Nat) : String := String.mk (s.data.drop n)

def isSpaceChar (c : Char) : Bool := c == ' ' || c == '\t' || c == '\n' || c == '\r'

def strTrim (s : String) : String :=
  String.mk (((s.data.dropWhile isSpaceChar).reverse.dropWhile isSpaceChar).reverse)

/-! ### Address helpers (pkg/api helpers: NormalizeAddress, HexToAddress, AddressToHex) -/

/-- NormalizeAddress: strip a 0x or 0X marker when the input is longer than
two characters, then lowercase. -/
def normalizeAddress (input : String) : String :=
  let stripped :=
    if strLen input > 2 && (strTakeN input 2 == "0x" || strTakeN input 2 == "0X")
    then strDropN input 2 else input
  strLower stripped

def hexDigitVal (c : Char) : Option Nat :=
  if c.toNat ≥ 48 && c.toNat ≤ 57 then some (c.toNat - 48)
  else if c.toNat ≥ 97 && c.toNat ≤ 102 then some (c.toNat - 87)
  else if c.toNat ≥ 65 && c.toNat ≤ 70 then some (c.toNat - 55)
  else none

def hexPairsToBytes : List Char → Option (List Nat)
  | [] => some []
  | hi :: lo :: rest =>
    match hexDigitVal hi, hexDigitVal lo, hexPairsToBytes rest with
    | some h, some l, some r => some ((16 * h + l) :: r)
    | _, _, _ => none
  | [_] => none

/-- HexToAddress: a 40-hex-character input (optionally 0x marked) decodes to a
20-byte address; shorter inputs are the legacy raw form, zero padded; anything
longer than 20 raw characters is rejected. -/
def hexToAddress (input : String) : Option (List Nat) :=
  let hexStr :=
    if strLen input > 2 && (strTakeN input 2 == "0x" || strTakeN input 2 == "0X")
    then strDropN input 2 else input
  if strLen hexStr == 40 then hexPairsToBytes hexStr.data
  else if strLen hexStr > 20 then none
  else some (hexStr.data.map Char.toNat ++ List.replicate (20 - strLen hexStr) 0)

def hexCharOf (n : Nat) : Char :=
  if n < 10 then Char.ofNat (48 + n) else Char.ofNat (87 + n)

/-- AddressToHex: lowercase hex rendering of a 20-byte address, no 0x marker. -/
def addressToHex (addr : List Nat) : String :=
  String.mk (addr.foldr (fun b acc => hexCharOf (b / 16) :: hexCharOf (b % 16) :: acc) [])

/-- Modelled from the spec: Go time formatting (layout 2006-01-02 15:04 in
api.FormatTimestamp) is standard-library code outside src; the model renders
the clock value it is given, keeping the display-string role the claims need. -/
def formatTimestamp (now : Nat) : String := "t" ++ toString now

/-! ### Data model (pkg/api types and the SQLite schema of database/schema.go) -/

structure Reaction where
  emoji : String
  count : Nat
deriving DecidableEq, Repr

structure UserSnap where
  name : String := ""
  username : String := ""
  avatar : String := ""
  bio : String := ""
  online : Bool := false
  status : String := ""
  address : String := ""
deriving DecidableEq, Repr

/-- The polymorphic sender field of api.Message: either a plain string (the
literal You for local origin) or a user snapshot. The database column stores
its JSON serialization; a serialized user object is a brace-led JSON text and
therefore never equal to the literal You, which the str and snap constructors
keep distinguishable. -/
inductive MsgSender where
  | str (s : String)
  | snap (u : UserSnap)
deriving DecidableEq, Repr

def senderIsYou : MsgSender → Bool
  | .str s => s == "You"
  | .snap _ => false

structure Message where
  id : String
  content : String
  timestamp : String
  sender : MsgSender
  unread : Bool := false
  status : String := ""
  reactions : List Reaction := []
  mediaUrl : String := ""
  isEdited : Bool := false
  isDeleted : Bool := false
deriving DecidableEq, Repr

/-- One row of the messages table: id TEXT PRIMARY KEY (global), plus the
UNIQUE(user_address, peer_address, id) key targeted by the upsert. -/
structure MessageRow where
  id : String
  user : String
  peer : String
  content : String
  timestamp : String
  sender : MsgSender
  mediaUrl : String
  isEdited : Bool
  isRead : Bool
  reactions : List Reaction
deriving DecidableEq, Repr

def rowKeyMatches (user peer id : String) (r : MessageRow) : Bool :=
  r.user == user && r.peer == peer && r.id == id

/-- The column set rewritten by the upsert conflict clause: content,
is_edited and reactions; every other column keeps its stored value. -/
def updRow (msg : Message) (r : MessageRow) : MessageRow :=
  { r with content := msg.content, isEdited := msg.isEdited, reactions := msg.reactions }

/-- The row a fresh insert produces; is_read is 1 exactly for the literal
You sender. -/
def insertRow (userAddr peerAddr : String) (msg : Message) : MessageRow :=
  { id := msg.id, user := userAddr, peer := peerAddr,
    content := msg.content, timestamp := msg.timestamp, sender := msg.sender,
    mediaUrl := msg.mediaUrl, isEdited := msg.isEdited,
    isRead := senderIsYou msg.sender, reactions := msg.reactions }

/-- SaveMessage (cmd/api-server main.go part): INSERT with
ON CONFLICT(user_address, peer_address, id) DO UPDATE SET content, is_edited,
reactions. A fresh row gets is_read = 1 exactly when the serialized sender is
the literal You. When the same id already exists under a different
(user, peer) pair the insert trips the id primary key, which is not the
conflict target, and SQLite reports a constraint error (behavior confirmed
against SQLite). -/
def saveMessage (table : List MessageRow) (userAddr peerAddr : String) (msg : Message) :
    Except String (List MessageRow) :=
  if table.any (rowKeyMatches userAddr peerAddr msg.id) then
    .ok (table.map (fun r =>
      if rowKeyMatches userAddr peerAddr msg.id r then updRow msg r else r))
  else if table.any (fun r => r.id == msg.id) then
    .error "UNIQUE constraint failed on messages.id"
  else
    .ok (table ++ [insertRow userAddr peerAddr msg])

/-- LoadMessages: rows of one chat in insertion (created_at) order; a loaded
message is unread when the row is unread and was not sent by the owner. -/
def loadMessages (table : List MessageRow) (userAddr peerAddr : String) : List Message :=
  (table.filter (fun r => r.user == userAddr && r.peer == peerAddr)).map (fun r =>
    { id := r.id, content := r.content, timestamp := r.timestamp, sender := r.sender,
      mediaUrl := r.mediaUrl, isEdited := r.isEdited, reactions := r.reactions,
      unread := !r.isRead && !(senderIsYou r.sender) })

def dedupStr (l : List String) : List String :=
  l.foldl (fun acc s => if acc.contains s then acc else acc ++ [s]) []

def loadAllChats (table : List MessageRow) (userAddr : String) : List (String × List Message) :=
  (dedupStr ((table.filter (fun r => r.user == userAddr)).map (fun r => r.peer))).map
    (fun peerAddr => (peerAddr, loadMessages table userAddr peerAddr))

/-! ### Contacts table (database/schema.go contacts part) -/

structure ContactRow where
  user : String
  contact : String
  username : String := ""
  isBlocked : Bool := false
  isMuted : Bool := false
  isFavorite : Bool := false
deriving DecidableEq, Repr

/-- IsContactBlocked: read the is_blocked flag of the (user, contact) row;
a missing row reads as not blocked. IsBlocked is an alias of this query. -/
def isContactBlocked (contacts : List ContactRow) (userAddr contactAddr : String) : Bool :=
  match contacts.find? (fun r => r.user == userAddr && r.contact == contactAddr) with
  | some r => r.isBlocked
  | none => false

/-! ### Users table (database/users.go) -/

structure UserRow where
  wallet : String
  username : String
  firstName : String := ""
  lastName : String := ""
  zentalkAddress : String := ""
  bio : String := ""
  status : String := "online"
  isOnline : Bool := false
  lastOnline : Nat := 0
deriving DecidableEq, Repr

/-- IsUsernameAvailable: no row may match the username case-insensitively
while belonging to a wallet other than excludeWallet. -/
def isUsernameAvailable (users : List UserRow) (username excludeWallet : String) : Bool :=
  users.countP (fun u => strLower u.username == strLower username && u.wallet != excludeWallet) == 0

/-- SaveUser: upsert on wallet_address; the conflict clause rewrites username,
bio and last_online but leaves zentalk_address and the name columns alone. -/
def saveUser (users : List UserRow) (walletAddr username zentalkAddr bio : String) (now : Nat) :
    List UserRow :=
  if users.any (fun u => u.wallet == walletAddr) then
    users.map (fun u => if u.wallet == walletAddr then
      { u with username := username, bio := bio, lastOnline := now } else u)
  else
    users ++ [{ wallet := walletAddr, username := username, zentalkAddress := zentalkAddr,
                bio := bio, lastOnline := now }]

def updateProfile (users : List UserRow) (walletAddr firstName lastName bio : String) :
    List UserRow :=
  users.map (fun u => if u.wallet == walletAddr then
    { u with firstName := firstName, lastName := lastName, bio := bio } else u)

def updateUserStatus (users : List UserRow) (walletAddr status : String) (now : Nat) :
    List UserRow :=
  users.map (fun u => if u.wallet == walletAddr then
    { u with status := status, lastOnline := now } else u)

def updateLastOnline (users : List UserRow) (walletAddr : String) (now : Nat) : List UserRow :=
  users.map (fun u => if u.wallet == walletAddr then
    { u with lastOnline := now, isOnline := false } else u)

/-! ### Offline-vault cryptography (server/offline_encryption.go)

The X3DH and AES-GCM primitives live in the external zentalk-node and Go
standard libraries (spec sections 1 and 6 treat them as library
collaborators), so they are spec-modelled here: a commuting Diffie-Hellman
group stands in for curve25519, the four-way X3DH combination follows the
spec glossary, and the cipher is a counter-mode keystream with an
authentication tag. The envelope wiring around them is translated from the
source. -/

def dhP : Nat := 251

def dhG : Nat := 6

def dhPub (x : Nat) : Nat := dhG ^ x % dhP

def dhShared (x y : Nat) : Nat := y ^ x % dhP

structure X3DHIdentity where
  dhPriv : Nat
deriving DecidableEq, Repr

def identityPub (i : X3DHIdentity) : Nat := dhPub i.dhPriv

structure SignedPreKey where
  keyId : Nat
  priv : Nat
deriving DecidableEq, Repr

structure KeyBundle where
  identityKey : Nat
  signedPreKeyPub : Nat
  signedPreKeyId : Nat
  oneTimePreKeys : List (Nat × Nat)
deriving DecidableEq, Repr

structure InitialMessage where
  senderAddress : List Nat
  identityKey : Nat
  ephemeralKey : Nat
  usedSignedPreKeyId : Nat
  usedOneTimePreKeyId : Nat
deriving DecidableEq, Repr

/-- Modelled from the spec: protocol.X3DHInitiator of the external crypto
library derives the shared secret as initiator from identity, signed prekey
and one-time prekey material, consuming one prekey of the bundle pool; the
ephemeral secret is an explicit parameter so the randomness is visible. -/
def x3dhInitiator (senderAddress : List Nat) (ident : X3DHIdentity) (ephPriv : Nat)
    (bundle : KeyBundle) : Option (List Nat × Nat × InitialMessage) :=
  match bundle.oneTimePreKeys with
  | [] => none
  | (opkId, opkPub) :: _ =>
    some ([dhShared ident.dhPriv bundle.signedPreKeyPub,
           dhShared ephPriv bundle.identityKey,
           dhShared ephPriv bundle.signedPreKeyPub,
           dhShared ephPriv opkPub],
          dhPub ephPriv,
          { senderAddress := senderAddress, identityKey := identityPub ident,
            ephemeralKey := dhPub ephPriv, usedSignedPreKeyId := bundle.signedPreKeyId,
            usedOneTimePreKeyId := opkId })

/-- Modelled from the spec: protocol.X3DHResponder recomputes the same secret
from the receiver identity, signed prekey and the one-time-prekey map keyed
by the ids carried in the initial message. -/
def x3dhResponder (ident : X3DHIdentity) (spk : SignedPreKey) (opks : List (Nat × Nat))
    (msg : InitialMessage) : Option (List Nat) :=
  if msg.usedSignedPreKeyId != spk.keyId then none
  else
    match opks.lookup msg.usedOneTimePreKeyId with
    | none => none
    | some opkPriv =>
      some [dhShared spk.priv msg.identityKey,
            dhShared ident.dhPriv msg.ephemeralKey,
            dhShared spk.priv msg.ephemeralKey,
            dhShared opkPriv msg.ephemeralKey]

def gcmKeyNum (key : List Nat) : Nat := key.foldl (fun a b => a * dhP + b) 0

def gcmKeystream (key : List Nat) (nonce i : Nat) : Nat :=
  (gcmKeyNum key + nonce * 65537 + i * 257) % 256

def gcmTag (key : List Nat) (nonce : Nat) (body : List Nat) : Nat :=
  (body.foldl (fun a b => a * 31 + b) (gcmKeyNum key + nonce)) % 256

def maskBytes (key : List Nat) (nonce : Nat) : Nat → List Nat → List Nat
  | _, [] => []
  | i, b :: rest => (b ^^^ gcmKeystream key nonce i) :: maskBytes key nonce (i + 1) rest

/-- Modelled from the spec: AES-256-GCM seal of the Go crypto library,
as a counter-mode keystream combined with an appended authentication tag. -/
def sealAESGCM (key : List Nat) (nonce : Nat) (plaintext : List Nat) : List Nat :=
  let body := maskBytes key nonce 0 plaintext
  body ++ [gcmTag key nonce body]

/-- Modelled from the spec: AES-256-GCM open; rejects a missing or wrong tag. -/
def openAESGCM (key : List Nat) (nonce : Nat) (ciphertext : List Nat) : Option (List Nat) :=
  match ciphertext.getLast? with
  | none => none
  | some tag =>
    let body := ciphertext.dropLast
    if tag == gcmTag key nonce body then some (maskBytes key nonce 0 body) else none

/-- Modelled from the spec: base64.StdEncoding on a numeric key value; the
model keeps the exact round-trip contract of the Go standard library. -/
def b64OfNat (n : Nat) : List Nat := Nat.digits 64 n

def natOfB64 (l : List Nat) : Nat := Nat.ofDigits 64 l

/-- Modelled from the spec: base64.StdEncoding on a byte string. -/
def b64OfBytes : List Nat → List Nat
  | [] => []
  | b :: rest => (b % 64) :: (b / 64) :: b64OfBytes rest

def bytesOfB64 : List Nat → Option (List Nat)
  | [] => some []
  | lo :: hi :: rest =>
    match bytesOfB64 rest with
    | some r => some ((lo + 64 * hi) :: r)
    | none => none
  | [_] => none

/-- The durable ciphertext envelope of server/offline_encryption.go; binary
fields carry their base64 transport encoding. -/
structure EncryptedOfflineMessage where
  senderAddress : String
  senderIdentityKey : List Nat
  ephemeralKey : List Nat
  usedSignedPreKeyId : Nat
  usedOneTimePreKeyId : Nat
  ciphertext : List Nat
  nonce : List Nat
  messageId : String
  timestamp : Int
deriving DecidableEq, Repr

/-- ParseAddress: normalize, require exactly 40 hex characters, decode. -/
def parseAddress (hexAddr : String) : Option (List Nat) :=
  let normalized := normalizeAddress hexAddr
  if strLen normalized != 40 then none else hexPairsToBytes normalized.data

/-! ### Server state (server/server.go) -/

def assocGet {κ α : Type} [BEq κ] (m : List (κ × α)) (k : κ) : Option α :=
  (m.find? (fun p => p.1 == k)).map (fun p => p.2)

def assocSet {κ α : Type} [BEq κ] (m : List (κ × α)) (k : κ) (v : α) : List (κ × α) :=
  if m.any (fun p => p.1 == k) then m.map (fun p => if p.1 == k then (k, v) else p)
  else m ++ [(k, v)]

def assocErase {κ α : Type} [BEq κ] (m : List (κ × α)) (k : κ) : List (κ × α) :=
  m.filter (fun p => !(p.1 == k))

/-- ClientSession: per-wallet session. clientAddress none models a nil
network client; dhtStarted, relayConnected and x3dhInit track the resources
acquired during initialization. The X3DH material mirrors what the client
exposes through GetX3DHIdentity, GetSignedPreKey and GetOneTimePreKeys. -/
structure ClientSession where
  username : String
  addr : String
  clientAddress : Option (List Nat) := none
  dhtStarted : Bool := false
  relayConnected : Bool := false
  x3dhInit : Bool := false
  cachedBundles : List (List Nat × KeyBundle) := []
  seqNums : List (List Nat × Nat) := []
  x3dhIdentity : Option X3DHIdentity := none
  signedPreKey : Option SignedPreKey := none
  oneTimePreKeys : List (Nat × Nat) := []
  messageHistory : List (String × List Message) := []
  contactCache : List (String × UserSnap) := []
deriving DecidableEq, Repr

structure ServerState where
  sessions : List (String × ClientSession) := []
  usernameToAddress : List (String × String) := []
  addressToUsername : List (String × String) := []
  wsConnections : List String := []
  onlineUsers : List String := []
  messages : List MessageRow := []
  contacts : List ContactRow := []
  users : List UserRow := []
deriving DecidableEq, Repr

inductive WSEvent where
  | message (id fromAddr content : String) (timestamp : Nat)
  | online (address : String) (isOnline : Bool)
  | statusUpdate (address status : String)
  | profileUpdate (address firstName lastName bio : String)
deriving DecidableEq, Repr

/-- Observable interactions with the outside world: a WebSocket frame to a
connection, a DHT key-bundle fetch, or a payload handed to the relay. -/
inductive Effect where
  | wsSend (recipient : String) (event : WSEvent)
  | discoverKeyBundle (addr : List Nat)
  | relaySend (recipient : List Nat) (content : String)
deriving DecidableEq, Repr

def historyAppend (h : List (String × List Message)) (k : String) (m : Message) :
    List (String × List Message) :=
  assocSet h k ((assocGet h k).getD [] ++ [m])

def createDisplayNameFromAddress (addr : String) : String × String :=
  let nameLength := if strLen addr < 8 then strLen addr else 8
  let displayName := if nameLength == strLen addr then addr else strTakeN addr nameLength ++ "..."
  (displayName, "@" ++ strTakeN addr nameLength)

/-- GetOrCreateUserWithProfile: full profile from the users table when
present, otherwise a display stub from the in-memory username mapping or the
address itself. -/
def getOrCreateUserWithProfile (st : ServerState) (normalizedAddr : String) : UserSnap :=
  match st.users.find? (fun u => u.wallet == normalizedAddr) with
  | some dbUser =>
    let name :=
      if dbUser.firstName != "" || dbUser.lastName != "" then
        if dbUser.lastName != "" then
          if dbUser.firstName != "" then dbUser.firstName ++ " " ++ dbUser.lastName
          else dbUser.lastName
        else dbUser.firstName
      else dbUser.username
    { name := name, username := dbUser.username, bio := dbUser.bio,
      online := st.onlineUsers.contains normalizedAddr,
      status := if dbUser.status == "" then "online" else dbUser.status,
      address := normalizedAddr }
  | none =>
    match assocGet st.addressToUsername normalizedAddr with
    | some actualUsername =>
      { name := actualUsername, username := "@" ++ actualUsername,
        avatar := "/static/images/avatar/default.jpg",
        online := st.onlineUsers.contains normalizedAddr, status := "online",
        address := normalizedAddr }
    | none =>
      let dn := createDisplayNameFromAddress normalizedAddr
      { name := dn.1, username := dn.2, avatar := "/static/images/avatar/default.jpg",
        online := st.onlineUsers.contains normalizedAddr, status := "online",
        address := normalizedAddr }

/-- The content marker for media messages: strip the [MEDIA] marker and take
the trimmed remainder as the media URL. -/
def extractMediaUrl (content : String) : String :=
  if strStartsWith content "[MEDIA]" then strTrim (strDropN content 7) else ""

/-- The local You message the blocked send path stores: status stays sent. -/
def blockedSendMessage (now : Nat) (content : String) : Message :=
  { id := "msg_" ++ toString now, content := content, timestamp := formatTimestamp now,
    sender := .str "You", status := "sent", mediaUrl := extractMediaUrl content }

/-! ### Routing fabric, inbound (server/messages.go OnMessageReceived) -/

structure DirectMessage where
  fromAddr : List Nat
  toAddr : List Nat
  timestamp : Nat
  content : String
deriving DecidableEq, Repr

/-- FindSessionByProtocolAddress: the key of the first live session whose
client is bound to the protocol address, or the empty string. -/
def findSessionByProtocolAddress (sessions : List (String × ClientSession)) (addr : List Nat) :
    String :=
  match sessions.find? (fun p => p.2.clientAddress == some addr) with
  | some p => p.1
  | none => ""

/-- The sender key OnMessageReceived works with: a live session key when the
protocol address is bound to one, otherwise the normalized hex form. -/
def receivedSenderAddr (st : ServerState) (msg : DirectMessage) : String :=
  let s := findSessionByProtocolAddress st.sessions msg.fromAddr
  if s == "" then normalizeAddress (addressToHex msg.fromAddr) else s

/-- OnMessageReceived: look up the receiver session, resolve the sender, drop
silently when the receiver has blocked the sender, otherwise cache the
contact, append to the in-memory history, persist the row (a persistence
error is only logged) and emit one message event to the receiver connection. -/
def onMessageReceivedF (st : ServerState) (now : Nat) (walletAddr : String)
    (msg : DirectMessage) : ServerState × List Effect :=
  match assocGet st.sessions walletAddr with
  | none => (st, [])
  | some session =>
    let senderAddr := receivedSenderAddr st msg
    let normalizedRecipient := normalizeAddress walletAddr
    let normalizedSender := normalizeAddress senderAddr
    if isContactBlocked st.contacts normalizedRecipient normalizedSender then (st, [])
    else
      let contact :=
        match assocGet session.contactCache senderAddr with
        | some c => { c with online := st.onlineUsers.contains senderAddr }
        | none => getOrCreateUserWithProfile st senderAddr
      let session := { session with contactCache := assocSet session.contactCache senderAddr contact }
      let msgID := "msg_" ++ toString msg.timestamp
      let content := msg.content
      let message : Message := {
        id := msgID, content := content, timestamp := formatTimestamp now,
        sender := .snap contact, unread := true, status := "delivered",
        mediaUrl := extractMediaUrl content }
      let session := { session with messageHistory := historyAppend session.messageHistory senderAddr message }
      let st := { st with sessions := assocSet st.sessions walletAddr session }
      let st := { st with messages := (saveMessage st.messages walletAddr senderAddr message).toOption.getD st.messages }
      let events :=
        if st.wsConnections.contains walletAddr then
          [Effect.wsSend walletAddr (WSEvent.message msgID senderAddr content now)]
        else []
      (st, events)

/-! ### Routing fabric, outbound (server/messages.go HandleSendMessage) -/

structure SendMessageRequest where
  recipientAddress : String
  content : String
deriving Repr

inductive SendResult where
  | ok (messageID : String) (timestamp : Nat) (msg : String)
  | err (msg : String) (code : Nat)
deriving DecidableEq, Repr

/-- Oracle for the externals the non-blocked send path touches: the DHT
discovery result, the relay key file read plus parse, and the ratchet send. -/
structure SendExt where
  discoveredBundle : Option KeyBundle := none
  relayKeyOk : Bool := true
  sendOk : Bool := true
deriving Repr

/-- Short non-marked inputs are first resolved through the username index. -/
def resolveRecipientInput (st : ServerState) (raw : String) : String :=
  if strLen raw < 40 && !(strStartsWith raw "0x") && !(strStartsWith raw "0X") then
    match assocGet st.usernameToAddress (strLower raw) with
    | some walletAddr => walletAddr
    | none => raw
  else raw

/-- Modelled from the spec: the per-peer monotonically increasing sequence
number the cryptographic client hands out (spec section 5 ordering); the
client implementation lives in the external zentalk-node repository. -/
def getNextSequenceNumber (session : ClientSession) (peer : List Nat) : Nat × ClientSession :=
  let nextSeq := (assocGet session.seqNums peer).getD 0 + 1
  (nextSeq, { session with seqNums := assocSet session.seqNums peer nextSeq })

/-- The tail of the non-blocked send path, after the key bundle is at hand:
relay key material, sequence numbering, the relay hand-off, then the local
history append, persistence and the success reply. -/
def sendCore (st : ServerState) (effects0 : List Effect) (sessionKey : String)
    (session : ClientSession) (recipientAddr : List Nat) (normalizedRecipient : String)
    (content : String) (now : Nat) (ext : SendExt) : ServerState × List Effect × SendResult :=
  let st := { st with sessions := assocSet st.sessions sessionKey session }
  let msgID := "msg_" ++ toString now
  if !ext.relayKeyOk then (st, effects0, .err "Failed to read relay public key" 500)
  else
    let seqPair := getNextSequenceNumber session recipientAddr
    let session := seqPair.2
    let st := { st with sessions := assocSet st.sessions sessionKey session }
    let effects := effects0 ++ [Effect.relaySend recipientAddr content]
    if !ext.sendOk then (st, effects, .err "Failed to send message" 500)
    else
      let newMessage : Message := {
        id := msgID, content := content, timestamp := formatTimestamp now,
        sender := .str "You", status := "delivered", mediaUrl := extractMediaUrl content }
      let session := { session with messageHistory := historyAppend session.messageHistory normalizedRecipient newMessage }
      let st := { st with sessions := assocSet st.sessions sessionKey session }
      let st := { st with messages := (saveMessage st.messages session.addr normalizedRecipient newMessage).toOption.getD st.messages }
      (st, effects, .ok msgID now "api.Message sent successfully")

/-- HandleSendMessage: reject a session whose client is nil (GetUserSession),
then resolve the recipient, and when the recipient row says
the sender is blocked, behave as if sent: append a You message with status
sent to the sender history, persist it, reply with success, and touch neither
the transport nor the recipient. Otherwise fetch or discover the key bundle
and continue through sendCore. -/
def handleSendMessageF (st : ServerState) (now : Nat) (ext : SendExt)
    (headerWallet : String) (req : SendMessageRequest) :
    ServerState × List Effect × SendResult :=
  match assocGet st.sessions (normalizeAddress headerWallet) with
  | none => (st, [], .err "session not initialized" 401)
  | some session =>
    if session.clientAddress == none then (st, [], .err "session not initialized" 401)
    else
    let searchInput := resolveRecipientInput st req.recipientAddress
    match hexToAddress searchInput with
    | none => (st, [], .err "Invalid recipient address or username not found" 400)
    | some recipientAddr =>
      let normalizedSender := normalizeAddress session.addr
      let normalizedRecipient := normalizeAddress searchInput
      if isContactBlocked st.contacts normalizedRecipient normalizedSender then
        let newMessage := blockedSendMessage now req.content
        let session2 := { session with messageHistory := historyAppend session.messageHistory normalizedRecipient newMessage }
        let st2 := { st with sessions := assocSet st.sessions (normalizeAddress headerWallet) session2 }
        let st3 := { st2 with messages := (saveMessage st2.messages session.addr normalizedRecipient newMessage).toOption.getD st2.messages }
        (st3, [], .ok newMessage.id now "Message sent")
      else
        match assocGet session.cachedBundles recipientAddr with
        | some _ =>
          sendCore st [] (normalizeAddress headerWallet) session recipientAddr
            normalizedRecipient req.content now ext
        | none =>
          match ext.discoveredBundle with
          | none => (st, [Effect.discoverKeyBundle recipientAddr],
                     .err "Failed to discover recipient" 404)
          | some bundle =>
            let session2 := { session with cachedBundles := assocSet session.cachedBundles recipientAddr bundle }
            let newContact := getOrCreateUserWithProfile st normalizedRecipient
            let session3 :=
              if (assocGet session2.contactCache normalizedRecipient).isNone then
                { session2 with contactCache := assocSet session2.contactCache normalizedRecipient newContact }
              else session2
            sendCore st [Effect.discoverKeyBundle recipientAddr] (normalizeAddress headerWallet)
              session3 recipientAddr normalizedRecipient req.content now ext

/-! ### Offline vault envelope wiring (server/offline_encryption.go) -/

/-- EncryptOfflineMessage: fetch the sender session, its X3DH identity and the
cached bundle of the recipient, run X3DH as initiator, seal the content, and
base64 the binary fields into the envelope. The fresh ephemeral secret and
the fresh 96-bit nonce are explicit parameters standing for the randomness. -/
def encryptOfflineMessageF (st : ServerState) (ephPriv nonceVal : Nat)
    (senderAddr recipientAddr : String) (content : List Nat) (messageID : String)
    (timestamp : Int) : Option EncryptedOfflineMessage :=
  match assocGet st.sessions senderAddr with
  | none => none
  | some session =>
    if session.clientAddress == none then none
    else
      match session.x3dhIdentity with
      | none => none
      | some senderIdentity =>
        match parseAddress senderAddr, parseAddress recipientAddr with
        | some senderAddress, some recipientAddress =>
          (match assocGet session.cachedBundles recipientAddress with
           | none => none
           | some keyBundle =>
             match x3dhInitiator senderAddress senderIdentity ephPriv keyBundle with
             | none => none
             | some (sharedSecret, ephemeralPub, initialMsg) =>
               some {
                 senderAddress := senderAddr,
                 senderIdentityKey := b64OfNat (identityPub senderIdentity),
                 ephemeralKey := b64OfNat ephemeralPub,
                 usedSignedPreKeyId := initialMsg.usedSignedPreKeyId,
                 usedOneTimePreKeyId := initialMsg.usedOneTimePreKeyId,
                 ciphertext := b64OfBytes (sealAESGCM sharedSecret nonceVal content),
                 nonce := b64OfNat nonceVal,
                 messageId := messageID, timestamp := timestamp })
        | _, _ => none

/-- DecryptOfflineMessage: fetch the recipient session and X3DH material,
rebuild the initial message from the envelope, run X3DH as responder and
open the ciphertext. -/
def decryptOfflineMessageF (st : ServerState) (recipientAddr : String)
    (encryptedMsg : EncryptedOfflineMessage) : Option (List Nat) :=
  match assocGet st.sessions recipientAddr with
  | none => none
  | some session =>
    if session.clientAddress == none then none
    else
      match session.x3dhIdentity with
      | none => none
      | some recipientIdentity =>
        match parseAddress encryptedMsg.senderAddress with
        | none => none
        | some senderAddress =>
          let initialMsg : InitialMessage := {
            senderAddress := senderAddress,
            identityKey := natOfB64 encryptedMsg.senderIdentityKey,
            ephemeralKey := natOfB64 encryptedMsg.ephemeralKey,
            usedSignedPreKeyId := encryptedMsg.usedSignedPreKeyId,
            usedOneTimePreKeyId := encryptedMsg.usedOneTimePreKeyId }
          match session.signedPreKey with
          | none => none
          | some signedPreKey =>
            match x3dhResponder recipientIdentity signedPreKey session.oneTimePreKeys initialMsg with
            | none => none
            | some sharedSecret =>
              match bytesOfB64 encryptedMsg.ciphertext with
              | none => none
              | some ciphertextBytes =>
                openAESGCM sharedSecret (natOfB64 encryptedMsg.nonce) ciphertextBytes

/-! ### Realtime hub broadcasts (database/schema.go websocket part,
server/account.go status and profile handlers) -/

/-- broadcastOnlineStatus: one online event per connection, skipping every
receiver whose contact row has blocked the sender. -/
def broadcastOnlineStatusF (st : ServerState) (senderAddress : String) (online : Bool) :
    List (String × WSEvent) :=
  let normalizedSender := normalizeAddress senderAddress
  (st.wsConnections.filter (fun recipientAddress =>
      !(isContactBlocked st.contacts (normalizeAddress recipientAddress) normalizedSender))).map
    (fun recipientAddress => (recipientAddress, WSEvent.online senderAddress online))

/-- broadcastWS: the unfiltered broadcast, one frame per connection. -/
def broadcastWSF (st : ServerState) (ev : WSEvent) : List (String × WSEvent) :=
  st.wsConnections.map (fun recipientAddress => (recipientAddress, ev))

/-- broadcastStatusUpdate: the block-filtering status broadcast. No handler in
the source invokes it; HandleUpdateStatus goes through broadcastWS instead. -/
def broadcastStatusUpdateF (st : ServerState) (senderAddress status : String) :
    List (String × WSEvent) :=
  let normalizedSender := normalizeAddress senderAddress
  (st.wsConnections.filter (fun recipientAddress =>
      !(isContactBlocked st.contacts (normalizeAddress recipientAddress) normalizedSender))).map
    (fun recipientAddress => (recipientAddress, WSEvent.statusUpdate senderAddress status))

/-- broadcastProfileUpdate: the block-filtering profile broadcast. No handler
in the source invokes it; HandleUpdateProfile sends no event at all. -/
def broadcastProfileUpdateF (st : ServerState) (senderAddress firstName lastName bio : String) :
    List (String × WSEvent) :=
  let normalizedSender := normalizeAddress senderAddress
  (st.wsConnections.filter (fun recipientAddress =>
      !(isContactBlocked st.contacts (normalizeAddress recipientAddress) normalizedSender))).map
    (fun recipientAddress => (recipientAddress, WSEvent.profileUpdate senderAddress firstName lastName bio))

structure HandlerOut where
  state : ServerState
  events : List (String × WSEvent)
  ok : Bool
deriving Repr

/-- HandleUpdateStatus: reject a missing or nil-client session (GetUserSession),
validate the status value, persist it, and broadcast
the status_update event through the unfiltered broadcastWS. -/
def handleUpdateStatusF (st : ServerState) (now : Nat) (headerWallet status : String) :
    HandlerOut :=
  match assocGet st.sessions (normalizeAddress headerWallet) with
  | none => ⟨st, [], false⟩
  | some session =>
    if session.clientAddress == none then ⟨st, [], false⟩
    else
    let walletAddr := normalizeAddress session.addr
    if !(status == "online" || status == "away" || status == "busy" || status == "offline") then
      ⟨st, [], false⟩
    else
      let st := { st with users := updateUserStatus st.users walletAddr status now }
      ⟨st, broadcastWSF st (WSEvent.statusUpdate walletAddr status), true⟩

/-- HandleUpdateProfile: reject a missing or nil-client session (GetUserSession),
then persist the profile fields; no broadcast is made. -/
def handleUpdateProfileF (st : ServerState) (headerWallet firstName lastName bio : String) :
    HandlerOut :=
  match assocGet st.sessions (normalizeAddress headerWallet) with
  | none => ⟨st, [], false⟩
  | some session =>
    if session.clientAddress == none then ⟨st, [], false⟩
    else
    let walletAddr := normalizeAddress session.addr
    ⟨{ st with users := updateProfile st.users walletAddr firstName lastName bio }, [], true⟩

/-- handleWebSocket, upgrade half: register the connection, mark online, and
broadcast presence true with block filtering. -/
def handleWebSocketConnectF (st : ServerState) (addressParam : String) :
    ServerState × List (String × WSEvent) :=
  if addressParam == "" then (st, [])
  else
    let address := normalizeAddress addressParam
    let st := { st with
      wsConnections := if st.wsConnections.contains address then st.wsConnections
                       else st.wsConnections ++ [address] }
    let st := { st with
      onlineUsers := if st.onlineUsers.contains address then st.onlineUsers
                     else st.onlineUsers ++ [address] }
    (st, broadcastOnlineStatusF st address true)

/-- handleWebSocket, disconnect half: drop the connection, mark offline,
persist last_online, and broadcast presence false with block filtering. The
session itself is kept. -/
def handleWebSocketDisconnectF (st : ServerState) (now : Nat) (address : String) :
    ServerState × List (String × WSEvent) :=
  let st := { st with wsConnections := st.wsConnections.filter (fun a => !(a == address)) }
  let st := { st with onlineUsers := st.onlineUsers.filter (fun a => !(a == address)) }
  let st := { st with users := updateLastOnline st.users (normalizeAddress address) now }
  (st, broadcastOnlineStatusF st address false)

/-! ### Username availability (server/account.go HandleCheckUsername) -/

/-- HandleCheckUsername: reject empty or over-long names, then consult
IsUsernameAvailable with an empty exclude wallet — the requesting wallet is
not passed in. -/
def handleCheckUsernameF (users : List UserRow) (username : String) : Bool × String :=
  if username == "" || strLen username > 50 then
    (false, "Username must be between 1-50 characters")
  else if isUsernameAvailable users username "" then (true, "Username is available")
  else (false, "Username is already taken")

/-! ### Session registry initialization (HandleInitialize, CreateSession,
CleanupSession of server.go and the initialize handler) -/

structure InitializeRequest where
  walletAddress : String
  username : String := ""
  firstName : String := ""
  lastName : String := ""
  signature : String := ""
  message : String := ""
deriving Repr

/-- Outcomes of the external steps of initialization: signature recovery,
RSA keypair generation, DHT node start, relay connection, X3DH setup, and
the relay reconnect attempted for an existing dead session. -/
structure InitExt where
  sigValid : Bool := true
  keygenOk : Bool := true
  dhtStartOk : Bool := true
  relayOk : Bool := true
  x3dhOk : Bool := true
  relayReconnectOk : Bool := true
deriving Repr

inductive InitResult where
  | ok (address msg : String)
  | err (msg : String) (code : Nat)
deriving DecidableEq, Repr

/-- CreateSession: a fresh session record keyed by the wallet address, with
its message history loaded from the database. -/
def createSessionF (st : ServerState) (address username : String) :
    ServerState × ClientSession :=
  let session : ClientSession := {
    username := username, addr := address,
    messageHistory := loadAllChats st.messages address }
  ({ st with sessions := assocSet st.sessions address session }, session)

/-- CleanupSession: remove the session (stopping its DHT node with it);
persisted data stays. -/
def cleanupSessionF (st : ServerState) (address : String) : ServerState :=
  { st with sessions := assocErase st.sessions address }

/-- The new-session tail of HandleInitialize: create the session, set both
username mappings, then generate keys, start the DHT node, connect the relay
and initialize X3DH; each failure returns an error immediately, with no
cleanup of what was already created. On success the user row is persisted. -/
def initNewSession (st : ServerState) (walletAddr usernameR : String) (addr : List Nat)
    (req : InitializeRequest) (ext : InitExt) (now : Nat) : ServerState × InitResult :=
  let pair := createSessionF st walletAddr usernameR
  let st := pair.1
  let session := pair.2
  let st := { st with
    usernameToAddress := assocSet st.usernameToAddress (strLower usernameR) walletAddr,
    addressToUsername := assocSet st.addressToUsername walletAddr usernameR }
  if !ext.keygenOk then (st, .err "Failed to generate keys" 500)
  else if !ext.dhtStartOk then (st, .err "Failed to start DHT" 500)
  else
    let session := { session with dhtStarted := true, clientAddress := some addr }
    let st := { st with sessions := assocSet st.sessions walletAddr session }
    if !ext.relayOk then (st, .err "Failed to connect to relay" 500)
    else
      let session := { session with relayConnected := true }
      let st := { st with sessions := assocSet st.sessions walletAddr session }
      if !ext.x3dhOk then (st, .err "Failed to initialize X3DH" 500)
      else
        let session := { session with x3dhInit := true }
        let st := { st with sessions := assocSet st.sessions walletAddr session }
        let st := { st with users := saveUser st.users walletAddr usernameR walletAddr "" now }
        let st :=
          if req.firstName != "" || req.lastName != "" then
            { st with users := updateProfile st.users walletAddr req.firstName req.lastName "" }
          else st
        (st, .ok walletAddr "Client initialized successfully")

/-- HandleInitialize: validate the wallet, optionally verify the signature,
resolve and check the username, reuse or reconnect an existing live session,
and otherwise run the new-session sequence of initNewSession. -/
def handleInitializeF (st : ServerState) (req : InitializeRequest) (ext : InitExt)
    (now : Nat) : ServerState × InitResult :=
  match hexToAddress req.walletAddress with
  | none => (st, .err "Invalid wallet address format" 400)
  | some addr =>
    let walletAddr := normalizeAddress req.walletAddress
    if req.signature != "" && req.message != "" && !ext.sigValid then
      (st, .err "Signature verification failed" 401)
    else if req.signature != "" && req.message == "" then
      (st, .err "Signature provided but message missing" 400)
    else
      let usernameR :=
        if req.username == "" then
          match st.users.find? (fun u => u.wallet == walletAddr) with
          | some existing => existing.username
          | none => ""
        else req.username
      if usernameR == "" then (st, .err "Username required for new user registration" 400)
      else if req.username != "" && !(isUsernameAvailable st.users req.username walletAddr) then
        (st, .err "Username is already taken" 409)
      else
        match assocGet st.sessions walletAddr with
        | some existing =>
          if existing.clientAddress.isSome then
            if !existing.relayConnected then
              if ext.relayReconnectOk then
                let st := { st with sessions := assocSet st.sessions walletAddr { existing with relayConnected := true } }
                (st, .ok walletAddr "Session active, relay reconnected")
              else
                initNewSession (cleanupSessionF st walletAddr) walletAddr usernameR addr req ext now
            else (st, .ok walletAddr "Session active")
          else initNewSession st walletAddr usernameR addr req ext now
        | none => initNewSession st walletAddr usernameR addr req ext now

/-! ### Channel engine (database/channel_members.go, server/channel_members.go) -/

structure ChannelRow where
  id : String
  name : String
  ownerAddress : String
  ctype : String
  subscriberCount : Int
deriving DecidableEq, Repr

structure ChannelMemberRow where
  channelId : String
  userAddress : String
  role : String
  joinedAt : Nat := 0
deriving DecidableEq, Repr

structure ChannelInviteRow where
  id : String
  channelId : String
  invitedBy : String
  inviteCode : String
  maxUses : Int
  uses : Int
  expiresAt : Option Nat
deriving DecidableEq, Repr

structure ChannelDB where
  channels : List ChannelRow
  members : List ChannelMemberRow
  invites : List ChannelInviteRow
deriving DecidableEq, Repr

/-- AddChannelMember: INSERT the membership row, then bump subscriber_count
with a second standalone statement; a failure of that second statement is
only logged and the function still reports success — mirrored by the
countUpdFails flag. The insert itself fails on the (channel_id, user_address)
primary key. -/
def addChannelMember (db : ChannelDB) (channelID userAddr role : String) (now : Nat)
    (countUpdFails : Bool) : Except String ChannelDB :=
  if db.members.any (fun m => m.channelId == channelID && m.userAddress == userAddr) then
    .error "failed to add channel member"
  else
    let db1 := { db with members := db.members ++
      [{ channelId := channelID, userAddress := userAddr, role := role, joinedAt := now }] }
    if countUpdFails then .ok db1
    else .ok { db1 with channels := db1.channels.map (fun c =>
      if c.id == channelID then { c with subscriberCount := c.subscriberCount + 1 } else c) }

/-- RemoveChannelMember: DELETE the membership row, erroring when nothing was
deleted, then decrement subscriber_count (guarded to stay nonnegative) with a
second standalone statement whose failure is only logged. -/
def removeChannelMember (db : ChannelDB) (channelID userAddr : String)
    (countUpdFails : Bool) : Except String ChannelDB :=
  let remaining := db.members.filter (fun m => !(m.channelId == channelID && m.userAddress == userAddr))
  if remaining.length == db.members.length then .error "member not found in channel"
  else
    let db1 := { db with members := remaining }
    if countUpdFails then .ok db1
    else .ok { db1 with channels := db1.channels.map (fun c =>
      if c.id == channelID && c.subscriberCount > 0 then { c with subscriberCount := c.subscriberCount - 1 } else c) }

/-- ValidateChannelInvite: resolve the code, reject an expired invite
(expiry strictly in the past) or an exhausted one (uses at max_uses with
max_uses positive), and return the channel the invite belongs to. -/
def validateChannelInvite (db : ChannelDB) (now : Nat) (inviteCode : String) :
    Except String String :=
  match db.invites.find? (fun i => i.inviteCode == inviteCode) with
  | none => .error "invalid invite code"
  | some inv =>
    if (match inv.expiresAt with | some e => decide (e < now) | none => false) then
      .error "invite has expired"
    else if inv.maxUses > 0 && inv.uses ≥ inv.maxUses then
      .error "invite has reached maximum uses"
    else .ok inv.channelId

/-- IncrementInviteUses: UPDATE uses = uses + 1 on the row with the code. -/
def incrementInviteUses (db : ChannelDB) (inviteCode : String) : ChannelDB :=
  { db with invites := db.invites.map (fun i =>
      if i.inviteCode == inviteCode then { i with uses := i.uses + 1 } else i) }

inductive SubscribeResult where
  | ok (msg : String)
  | err (msg : String) (code : Nat)
deriving DecidableEq, Repr

def subscribeSucceeded : SubscribeResult → Bool
  | .ok _ => true
  | .err _ _ => false

/-- HandleSubscribeToChannel: resolve the channel, refuse a second
subscription, and for a private channel demand a valid invite bound to the
channel; the invite counter is incremented by a separate statement before the
membership insert, outside any transaction. WebSocket fan-out to members is
not part of the persistent state and is omitted here. -/
def handleSubscribeToChannelF (db : ChannelDB) (now : Nat)
    (userAddr channelId inviteCode : String) : ChannelDB × SubscribeResult :=
  if channelId == "" then (db, .err "Channel ID is required" 400)
  else
    match db.channels.find? (fun c => c.id == channelId) with
    | none => (db, .err "Channel not found" 404)
    | some channel =>
      if db.members.any (fun m => m.channelId == channelId && m.userAddress == userAddr) then
        (db, .err "You are already subscribed to this channel" 400)
      else if channel.ctype == "private" then
        if inviteCode == "" then (db, .err "Invite code is required for private channels" 400)
        else
          match validateChannelInvite db now inviteCode with
          | .error e => (db, .err e 400)
          | .ok inviteChannelId =>
            if inviteChannelId != channelId then
              (db, .err "Invalid invite code for this channel" 400)
            else
              let db := incrementInviteUses db inviteCode
              match addChannelMember db channelId userAddr "subscriber" now false with
              | .error _ => (db, .err "Failed to subscribe to channel" 500)
              | .ok db2 => (db2, .ok "Successfully subscribed to channel")
      else
        match addChannelMember db channelId userAddr "subscriber" now false with
        | .error _ => (db, .err "Failed to subscribe to channel" 500)
        | .ok db2 => (db2, .ok "Successfully subscribed to channel")

def countMembersFor (db : ChannelDB) (channelId : String) : Nat :=
  db.members.countP (fun m => m.channelId == channelId)

/-- The invariant of spec section 3: every stored subscriber_count equals the
number of membership rows of that channel. -/
def countConsistent (db : ChannelDB) : Prop :=
  ∀ c ∈ db.channels, c.subscriberCount = (countMembersFor db c.id : Int)

def countConsistentB (db : ChannelDB) : Bool :=
  db.channels.all (fun c => c.subscriberCount == (countMembersFor db c.id : Int))

def memberKeys (db : ChannelDB) : List (String × String) :=
  db.members.map (fun m => (m.channelId, m.userAddress))

inductive MemberOp where
  | add (channelId userAddr role : String) (now : Nat) (countUpdFails : Bool)
  | remove (channelId userAddr : String) (countUpdFails : Bool)
deriving Repr

/-- One database-level membership operation as the handlers drive it: the
result state on success, the unchanged state on error. -/
def applyMemberOp (db : ChannelDB) : MemberOp → ChannelDB
  | .add c u r t f =>
    match addChannelMember db c u r t f with
    | .ok db2 => db2
    | .error _ => db
  | .remove c u f =>
    match removeChannelMember db c u f with
    | .ok db2 => db2
    | .error _ => db

def applyMemberOps (db : ChannelDB) (ops : List MemberOp) : ChannelDB :=
  ops.foldl applyMemberOp db

def opNoInjectedFailure : MemberOp → Bool
  | .add _ _ _ _ f => !f
  | .remove _ _ f => !f

def inviteUsesOf (db : ChannelDB) (code : String) : Option Int :=
  (db.invites.find? (fun i => i.inviteCode == code)).map (fun i => i.uses)

def tripleCount (table : List MessageRow) (user peer id : String) : Nat :=
  table.countP (rowKeyMatches user peer id)

/-! Named intermediate states of the initialize sequence, used to spell out
where each failure leaves the server. -/

def newSessionRecord (st : ServerState) (walletAddr usernameR : String) : ClientSession :=
  { username := usernameR, addr := walletAddr,
    messageHistory := loadAllChats st.messages walletAddr }

/-- The state after CreateSession plus both username mappings. -/
def initMapsState (st : ServerState) (walletAddr usernameR : String) : ServerState :=
  { st with
    sessions := assocSet st.sessions walletAddr (newSessionRecord st walletAddr usernameR),
    usernameToAddress := assocSet st.usernameToAddress (strLower usernameR) walletAddr,
    addressToUsername := assocSet st.addressToUsername walletAddr usernameR }

/-- The session record once the DHT node started and the client was built. -/
def dhtSessionRecord (st : ServerState) (walletAddr usernameR : String) (addr : List Nat) :
    ClientSession :=
  { newSessionRecord st walletAddr usernameR with dhtStarted := true, clientAddress := some addr }

def initDhtState (st : ServerState) (walletAddr usernameR : String) (addr : List Nat) :
    ServerState :=
  let base := initMapsState st walletAddr usernameR
  { base with sessions := assocSet base.sessions walletAddr (dhtSessionRecord st walletAddr usernameR addr) }

def relaySessionRecord (st : ServerState) (walletAddr usernameR : String) (addr : List Nat) :
    ClientSession :=
  { dhtSessionRecord st walletAddr usernameR addr with relayConnected := true }

def initRelayState (st : ServerState) (walletAddr usernameR : String) (addr : List Nat) :
    ServerState :=
  let base := initDhtState st walletAddr usernameR addr
  { base with sessions := assocSet base.sessions walletAddr (relaySessionRecord st walletAddr usernameR addr) }

/-! ### Concrete fixtures for witnesses and counterexamples -/

def wSessionA : ClientSession :=
  { username := "alice", addr := "aa", clientAddress := hexToAddress "aa" }

def wSessionB : ClientSession := { username := "bob", addr := "bb" }

def wSessionB2 : ClientSession :=
  { username := "bob", addr := "bb", clientAddress := hexToAddress "bb" }

def exC1st : ServerState := {
  sessions := [("bb", wSessionB), ("aa", wSessionA)],
  contacts := [{ user := "bb", contact := "aa", isBlocked := true }] }

def exC1msg : DirectMessage := {
  fromAddr := (hexToAddress "aa").getD [], toAddr := (hexToAddress "bb").getD [],
  timestamp := 7, content := "hello" }

def exC2st : ServerState := {
  sessions := [("bb", wSessionB2)],
  contacts := [{ user := "aa", contact := "bb", isBlocked := true }] }

def exC2req : SendMessageRequest := { recipientAddress := "aa", content := "ping" }

def emptyState : ServerState := {}

def exC3req : InitializeRequest := { walletAddress := "ab", username := "alice" }

def exC3ext : InitExt := { dhtStartOk := false }

def exC4db : ChannelDB := {
  channels := [{ id := "c1", name := "secret", ownerAddress := "own", ctype := "private",
                 subscriberCount := 1 }],
  members := [{ channelId := "c1", userAddress := "u1", role := "subscriber" }],
  invites := [{ id := "i1", channelId := "c1", invitedBy := "own", inviteCode := "x",
                maxUses := 0, uses := 0, expiresAt := none }] }

def exC4ch : ChannelRow :=
  { id := "c1", name := "secret", ownerAddress := "own", ctype := "private", subscriberCount := 1 }

def exC4db2 : ChannelDB := {
  channels := [exC4ch],
  members := [{ channelId := "c1", userAddress := "own", role := "owner" }],
  invites := [{ id := "i1", channelId := "c1", invitedBy := "own", inviteCode := "x",
                maxUses := 1, uses := 0, expiresAt := none }] }

def exC5db : ChannelDB := {
  channels := [{ id := "c1", name := "news", ownerAddress := "own", ctype := "public",
                 subscriberCount := 0 }],
  members := [], invites := [] }

def exC5db1 : ChannelDB := {
  channels := [{ id := "c1", name := "news", ownerAddress := "own", ctype := "public",
                 subscriberCount := 0 }],
  members := [{ channelId := "c1", userAddress := "u1", role := "subscriber", joinedAt := 0 }],
  invites := [] }

def exC5ops : List MemberOp :=
  [.add "c1" "u1" "subscriber" 1 false, .add "c1" "u2" "subscriber" 2 false,
   .remove "c1" "u1" false]

def exC8sess : ClientSession :=
  { username := "alice", addr := "aa", clientAddress := hexToAddress "aa" }

def exC8st : ServerState := {
  sessions := [("aa", exC8sess)],
  wsConnections := ["bb"],
  contacts := [{ user := "bb", contact := "aa", isBlocked := true }],
  users := [{ wallet := "aa", username := "alice" }] }

def exC3extB : InitExt := { relayOk := false }

def exC3addr : List Nat := [97, 98] ++ List.replicate 18 0

def exC9users : List UserRow := [{ wallet := "aw", username := "alice" }]

def wMsg1 : Message := { id := "m1", content := "one", timestamp := "t1", sender := .str "You" }

def wMsg2 : Message := { id := "m1", content := "two", timestamp := "t2", sender := .str "You" }

def wRow1 : MessageRow := {
  id := "m1", user := "u", peer := "p", content := "one", timestamp := "t1",
  sender := .str "You", mediaUrl := "", isEdited := false, isRead := true, reactions := [] }

def wT1 : List MessageRow := [wRow1]

def aHex : String := "aaaaaaaaaaaaaaaaaaaaaaaaaaaaaaaaaaaaaaaa"

def bHex : String := "bbbbbbbbbbbbbbbbbbbbbbbbbbbbbbbbbbbbbbbb"

def wBundleB : KeyBundle := {
  identityKey := dhPub 5, signedPreKeyPub := dhPub 7, signedPreKeyId := 1,
  oneTimePreKeys := [(9, dhPub 11)] }

def wSessA7 : ClientSession := {
  username := "alice", addr := aHex, clientAddress := some [],
  x3dhIdentity := some ⟨3⟩,
  cachedBundles := [((parseAddress bHex).getD [], wBundleB)] }

def wSessB7 : ClientSession := {
  username := "bob", addr := bHex, clientAddress := some [],
  x3dhIdentity := some ⟨5⟩, signedPreKey := some { keyId := 1, priv := 7 },
  oneTimePreKeys := [(9, 11)] }

def exC7st : ServerState := { sessions := [(aHex, wSessA7), (bHex, wSessB7)] }

def exC7content : List Nat := [104, 105, 33]

/-! ## Theorems -/

/-! ### Association-list helper lemmas -/

theorem assocGet_set_eq {κ α : Type} [BEq κ] [LawfulBEq κ] (m : List (κ × α)) (k : κ) (v : α) :
    assocGet (assocSet m k v) k = some v := by
  unfold assocGet assocSet
  by_cases h : (m.any fun p => p.1 == k) = true
  · rw [if_pos h, List.find?_map]
    rcases List.any_eq_true.mp h with ⟨x, hx, hxk⟩
    have hfind :
        (List.find? ((fun p : κ × α => p.1 == k) ∘ fun p => if p.1 == k then (k, v) else p) m).isSome := by
      rw [List.find?_isSome]
      exact ⟨x, hx, by simp [Function.comp, hxk]⟩
    rcases Option.isSome_iff_exists.mp hfind with ⟨y, hy⟩
    have hyk := List.find?_some hy
    rw [hy]
    simp only [Function.comp_apply] at hyk
    by_cases hyk2 : (y.1 == k) = true
    · simp [hyk2]
    · rw [if_neg hyk2] at hyk
      exact absurd hyk hyk2
  · rw [if_neg h, List.find?_append]
    have hnone : List.find? (fun p : κ × α => p.1 == k) m = none := by
      rw [List.find?_eq_none]
      intro x hx hxk
      exact h (List.any_eq_true.mpr ⟨x, hx, hxk⟩)
    simp [hnone, List.find?]

theorem assocGet_set_ne {κ α : Type} [BEq κ] [LawfulBEq κ] (m : List (κ × α)) (k k2 : κ) (v : α)
    (hne : k2 ≠ k) : assocGet (assocSet m k v) k2 = assocGet m k2 := by
  have hbeq : (k == k2) = false := by
    simp only [beq_eq_false_iff_ne]
    exact fun h => hne h.symm
  unfold assocGet assocSet
  by_cases h : (m.any fun p => p.1 == k) = true
  · rw [if_pos h, List.find?_map]
    have hcomp : ((fun p : κ × α => p.1 == k2) ∘ fun p : κ × α => if p.1 == k then (k, v) else p) =
        fun p : κ × α => p.1 == k2 := by
      funext p
      by_cases hp : (p.1 == k) = true
      · have hpk : p.1 = k := eq_of_beq hp
        simp [Function.comp, hp, hbeq, hpk]
      · simp [Function.comp, hp]
    rw [hcomp]
    cases hf : List.find? (fun p : κ × α => p.1 == k2) m with
    | none => simp
    | some y =>
      have hyk := List.find?_some hf
      have hyne : (y.1 == k) = false := by
        by_cases hk : (y.1 == k) = true
        · exfalso
          have h1 : y.1 = k2 := eq_of_beq hyk
          have h2 : y.1 = k := eq_of_beq hk
          exact hne (h1.symm.trans h2)
        · simpa using hk
      simp [hyne]
  · rw [if_neg h, List.find?_append]
    have hsingle : List.find? (fun p : κ × α => p.1 == k2) [(k, v)] = none := by
      simp [List.find?, hbeq]
    rw [hsingle]
    cases hf : List.find? (fun p : κ × α => p.1 == k2) m with
    | none => simp
    | some y => simp

/-! ### C1 -/

/-- C1: when the receiver contact row marks the resolved sender as blocked,
OnMessageReceived leaves the whole server state unchanged and emits nothing:
no in-memory history entry, no persisted row, no WebSocket event. -/
theorem c1_blocked_inbound_dropped (st : ServerState) (now : Nat) (walletAddr : String)
    (msg : DirectMessage)
    (hBlocked : isContactBlocked st.contacts (normalizeAddress walletAddr)
      (normalizeAddress (receivedSenderAddr st msg)) = true) :
    onMessageReceivedF st now walletAddr msg = (st, []) := by
  unfold onMessageReceivedF
  cases h : assocGet st.sessions walletAddr with
  | none => rfl
  | some session => simp [hBlocked]

theorem c1_blocked_inbound_dropped_witness :
    onMessageReceivedF exC1st 5 "bb" exC1msg = (exC1st, []) :=
  c1_blocked_inbound_dropped exC1st 5 "bb" exC1msg (by decide)

/-! ### C9 -/

/-- C9 counterexample: a single user row owned by wallet aw holds the name
alice; the check-username handler reports alice unavailable even though no
row with a matching name belongs to a wallet other than the requesting aw —
the handler never receives the requesting wallet (it passes an empty exclude
wallet), so the claimed equivalence fails at this input. -/
theorem c9_own_username_reported_taken :
    (handleCheckUsernameF exC9users "alice").1 = false ∧
    exC9users.all (fun u => !(strLower u.username == strLower "alice" && u.wallet != "aw")) = true := by
  decide

/-- C9 amended: check-username reports available = false exactly when the
username is empty or longer than 50 characters, or some user row matches it
case-insensitively and has a nonempty wallet address — regardless of who
asks; the requesting wallet is never excluded. -/
theorem c9_check_username_characterization (users : List UserRow) (username : String) :
    (handleCheckUsernameF users username).1 = false ↔
      (username = "" ∨ 50 < strLen username ∨
        ∃ u ∈ users, strLower u.username = strLower username ∧ u.wallet ≠ "") := by
  have hpred : ∀ u : UserRow,
      ((strLower u.username == strLower username && u.wallet != "") = true) ↔
        (strLower u.username = strLower username ∧ u.wallet ≠ "") := by
    intro u
    simp [Bool.and_eq_true, bne_iff_ne]
  unfold handleCheckUsernameF isUsernameAvailable
  by_cases h0 : username = ""
  · subst h0
    simp
  · have hb0 : (username == "") = false := by simpa using h0
    by_cases h2 : 50 < strLen username
    · have hb2 : decide (strLen username > 50) = true := by simpa using h2
      simp [hb0, hb2, h2]
    · have hb2 : decide (strLen username > 50) = false := by simpa using h2
      simp only [hb0, hb2, Bool.false_or, Bool.or_false, if_false]
      by_cases h3 :
          (users.countP fun u => strLower u.username == strLower username && u.wallet != "") = 0
      · have hforall := List.countP_eq_zero.mp h3
        have hb3 :
            ((users.countP fun u => strLower u.username == strLower username && u.wallet != "") == 0)
              = true := by simpa using h3
        simp only [hb3, if_true]
        constructor
        · intro hfalse
          exact absurd hfalse (by simp)
        · rintro (h | h | ⟨u, hu, hmatch⟩)
          · exact absurd h h0
          · exact absurd h h2
          · exact absurd ((hpred u).mpr hmatch) (hforall u hu)
      · have hb3 :
            ((users.countP fun u => strLower u.username == strLower username && u.wallet != "") == 0)
              = false := by simpa using h3
        simp only [hb3, if_false]
        constructor
        · intro _
          right; right
          have hpos : 0 < users.countP fun u =>
              strLower u.username == strLower username && u.wallet != "" :=
            Nat.pos_of_ne_zero h3
          rcases List.countP_pos_iff.mp hpos with ⟨u, hu, hup⟩
          exact ⟨u, hu, (hpred u).mp hup⟩
        · intro _
          rfl

/-! ### C3 counterexample -/

/-- C3 counterexample: starting from an empty registry, an initialize call
whose DHT start fails returns an error, yet the freshly created session is
still in the session map and both username mappings are set — the call is not
atomic and releases nothing. -/
theorem c3_initialize_dht_failure_leaves_state :
    (handleInitializeF emptyState exC3req exC3ext 0).2 = InitResult.err "Failed to start DHT" 500 ∧
    (handleInitializeF emptyState exC3req exC3ext 0).1.sessions ≠ emptyState.sessions ∧
    assocGet (handleInitializeF emptyState exC3req exC3ext 0).1.usernameToAddress "alice" = some "ab" ∧
    assocGet (handleInitializeF emptyState exC3req exC3ext 0).1.addressToUsername "ab" = some "alice" := by
  decide

/-! ### C4 counterexample -/

/-- C4 counterexample: the invite x exists, is bound to channel c1, never
expires and has unlimited uses, yet the join attempt of u1 — who is already a
member — fails, so join success is not equivalent to invite validity. -/
theorem c4_valid_invite_join_can_fail :
    (validateChannelInvite exC4db 0 "x").toOption = some "c1" ∧
    subscribeSucceeded (handleSubscribeToChannelF exC4db 0 "u1" "c1" "x").2 = false ∧
    (handleSubscribeToChannelF exC4db 0 "u1" "c1" "x").1 = exC4db := by
  decide

/-! ### C5 counterexample -/

/-- C5 counterexample: AddChannelMember runs the membership INSERT and the
subscriber_count UPDATE as two standalone statements and swallows a failure
of the second, still reporting success; the resulting state has one member
row but a count of zero, which a single transaction could never produce. -/
theorem c5_count_update_not_atomic :
    countConsistentB exC5db = true ∧
    (addChannelMember exC5db "c1" "u1" "subscriber" 0 true).toOption = some exC5db1 ∧
    countConsistentB exC5db1 = false := by
  decide

/-! ### C8 counterexample -/

/-- C8 counterexample: aa holds an initialized session, bb has blocked aa and
is connected, yet when aa changes status the handler broadcasts the
status_update event through the unfiltered broadcastWS and bb receives it. -/
theorem c8_status_update_reaches_blocked_receiver :
    isContactBlocked exC8st.contacts "bb" "aa" = true ∧
    (handleUpdateStatusF exC8st 0 "aa" "away").events = [("bb", WSEvent.statusUpdate "aa" "away")] ∧
    (handleUpdateStatusF exC8st 0 "aa" "away").ok = true := by
  decide

/-- C8 amended: presence (online) broadcasts on connect and disconnect do
filter per recipient by the persistent contact row — a connected receiver
gets the event exactly when it has not blocked the sender. But an explicit
status change by an initialized session (client present) is broadcast
unfiltered to every connection, including
receivers who blocked the sender, and a profile update triggers no broadcast
at all (the filtering status and profile broadcast helpers exist but no
handler calls them). -/
theorem c8_broadcast_filtering_characterization :
    (∀ (st : ServerState) (a b : String) (onl : Bool) (ev : WSEvent),
      ((b, ev) ∈ broadcastOnlineStatusF st a onl ↔
        b ∈ st.wsConnections ∧
        isContactBlocked st.contacts (normalizeAddress b) (normalizeAddress a) = false ∧
        ev = WSEvent.online a onl)) ∧
    (∀ (st : ServerState) (now : Nat) (header status : String) (session : ClientSession),
      assocGet st.sessions (normalizeAddress header) = some session →
      (session.clientAddress == none) = false →
      (status == "online" || status == "away" || status == "busy" || status == "offline") = true →
      (handleUpdateStatusF st now header status).events =
        st.wsConnections.map (fun r => (r, WSEvent.statusUpdate (normalizeAddress session.addr) status))) ∧
    (∀ (st : ServerState) (header fn ln bio : String),
      (handleUpdateProfileF st header fn ln bio).events = []) := by
  refine ⟨?_, ?_, ?_⟩
  · intro st a b onl ev
    unfold broadcastOnlineStatusF
    simp only [List.mem_map, List.mem_filter]
    constructor
    · rintro ⟨r, ⟨hr, hblk⟩, heq⟩
      injection heq with h1 h2
      subst h1
      subst h2
      exact ⟨hr, by simpa using hblk, rfl⟩
    · rintro ⟨hb, hblk, rfl⟩
      exact ⟨b, ⟨hb, by simp [hblk]⟩, rfl⟩
  · intro st now header status session hs hcl hvalid
    unfold handleUpdateStatusF
    rw [hs]
    have hneg : (!(status == "online" || status == "away" || status == "busy" || status == "offline")) = false := by
      simp [hvalid]
    simp [hcl, hneg, broadcastWSF]
  · intro st header fn ln bio
    unfold handleUpdateProfileF
    cases assocGet st.sessions (normalizeAddress header) with
    | none => rfl
    | some session =>
      by_cases hc : (session.clientAddress == none) = true <;> simp [hc]

theorem c8_broadcast_filtering_characterization_witness :
    (handleUpdateStatusF exC8st 0 "aa" "away").events =
      exC8st.wsConnections.map (fun r => (r, WSEvent.statusUpdate (normalizeAddress exC8sess.addr) "away")) :=
  c8_broadcast_filtering_characterization.2.1 exC8st 0 "aa" "away" exC8sess (by decide)
    (by decide) (by decide)

/-! ### C3 helper lemmas and amended theorem -/

theorem handleInitializeF_new_session (st : ServerState) (req : InitializeRequest)
    (ext : InitExt) (now : Nat) (addr : List Nat)
    (haddr : hexToAddress req.walletAddress = some addr)
    (hsig : req.signature = "")
    (huser : req.username ≠ "")
    (havail : isUsernameAvailable st.users req.username (normalizeAddress req.walletAddress) = true)
    (hnosess : assocGet st.sessions (normalizeAddress req.walletAddress) = none) :
    handleInitializeF st req ext now =
      initNewSession st (normalizeAddress req.walletAddress) req.username addr req ext now := by
  unfold handleInitializeF
  rw [haddr]
  have h1 : (req.signature != "") = false := by simp [hsig]
  have h2 : (req.username == "") = false := by simpa using huser
  simp [h1, h2, havail, hnosess]

theorem initNewSession_failure (st : ServerState) (walletAddr usernameR : String)
    (addr : List Nat) (req : InitializeRequest) (ext : InitExt) (now : Nat)
    (hkeygen : ext.keygenOk = true)
    (hfail : ext.dhtStartOk = false ∨ ext.relayOk = false ∨ ext.x3dhOk = false) :
    ∃ st2 emsg s,
      initNewSession st walletAddr usernameR addr req ext now = (st2, InitResult.err emsg 500) ∧
      assocGet st2.sessions walletAddr = some s ∧
      assocGet st2.usernameToAddress (strLower usernameR) = some walletAddr ∧
      assocGet st2.addressToUsername walletAddr = some usernameR ∧
      (ext.dhtStartOk = true → s.dhtStarted = true) := by
  cases hd : ext.dhtStartOk with
  | false =>
    have heq : initNewSession st walletAddr usernameR addr req ext now =
        (initMapsState st walletAddr usernameR, InitResult.err "Failed to start DHT" 500) := by
      simp [initNewSession, createSessionF, initMapsState, newSessionRecord, hkeygen, hd]
    refine ⟨initMapsState st walletAddr usernameR, "Failed to start DHT",
      newSessionRecord st walletAddr usernameR, heq, ?_, ?_, ?_, ?_⟩
    · exact assocGet_set_eq st.sessions walletAddr _
    · exact assocGet_set_eq st.usernameToAddress (strLower usernameR) walletAddr
    · exact assocGet_set_eq st.addressToUsername walletAddr usernameR
    · intro hcontra
      exact absurd hcontra (by simp [hd])
  | true =>
    cases hr : ext.relayOk with
    | false =>
      have heq : initNewSession st walletAddr usernameR addr req ext now =
          (initDhtState st walletAddr usernameR addr, InitResult.err "Failed to connect to relay" 500) := by
        simp [initNewSession, createSessionF, initMapsState, initDhtState, newSessionRecord,
          dhtSessionRecord, hkeygen, hd, hr]
      refine ⟨initDhtState st walletAddr usernameR addr, "Failed to connect to relay",
        dhtSessionRecord st walletAddr usernameR addr, heq, ?_, ?_, ?_, ?_⟩
      · exact assocGet_set_eq _ walletAddr _
      · exact assocGet_set_eq st.usernameToAddress (strLower usernameR) walletAddr
      · exact assocGet_set_eq st.addressToUsername walletAddr usernameR
      · intro _
        rfl
    | true =>
      cases hx : ext.x3dhOk with
      | false =>
        have heq : initNewSession st walletAddr usernameR addr req ext now =
            (initRelayState st walletAddr usernameR addr, InitResult.err "Failed to initialize X3DH" 500) := by
          simp [initNewSession, createSessionF, initMapsState, initDhtState, initRelayState,
            newSessionRecord, dhtSessionRecord, relaySessionRecord, hkeygen, hd, hr, hx]
        refine ⟨initRelayState st walletAddr usernameR addr, "Failed to initialize X3DH",
          relaySessionRecord st walletAddr usernameR addr, heq, ?_, ?_, ?_, ?_⟩
        · exact assocGet_set_eq _ walletAddr _
        · exact assocGet_set_eq st.usernameToAddress (strLower usernameR) walletAddr
        · exact assocGet_set_eq st.addressToUsername walletAddr usernameR
        · intro _
          rfl
      | true =>
        rcases hfail with h | h | h
        · exact absurd hd (by simp [h])
        · exact absurd hr (by simp [h])
        · exact absurd hx (by simp [h])

/-- C3 amended: an initialize call that fails at DHT start, relay connect or
X3DH setup is not atomic: the error is returned while the freshly created
session entry stays in the session map, both username mappings stay set, and
for the post-DHT failures the started DHT node is still running inside the
retained session. -/
theorem c3_initialize_failure_partial_state (st : ServerState) (req : InitializeRequest)
    (ext : InitExt) (now : Nat) (addr : List Nat)
    (haddr : hexToAddress req.walletAddress = some addr)
    (hsig : req.signature = "")
    (huser : req.username ≠ "")
    (havail : isUsernameAvailable st.users req.username (normalizeAddress req.walletAddress) = true)
    (hnosess : assocGet st.sessions (normalizeAddress req.walletAddress) = none)
    (hkeygen : ext.keygenOk = true)
    (hfail : ext.dhtStartOk = false ∨ ext.relayOk = false ∨ ext.x3dhOk = false) :
    ∃ st2 emsg s,
      handleInitializeF st req ext now = (st2, InitResult.err emsg 500) ∧
      assocGet st2.sessions (normalizeAddress req.walletAddress) = some s ∧
      assocGet st2.usernameToAddress (strLower req.username) = some (normalizeAddress req.walletAddress) ∧
      assocGet st2.addressToUsername (normalizeAddress req.walletAddress) = some req.username ∧
      (ext.dhtStartOk = true → s.dhtStarted = true) := by
  rw [handleInitializeF_new_session st req ext now addr haddr hsig huser havail hnosess]
  exact initNewSession_failure st (normalizeAddress req.walletAddress) req.username addr req ext
    now hkeygen hfail

theorem c3_initialize_failure_partial_state_witness :
    ∃ st2 emsg s,
      handleInitializeF emptyState exC3req exC3extB 0 = (st2, InitResult.err emsg 500) ∧
      assocGet st2.sessions (normalizeAddress exC3req.walletAddress) = some s ∧
      assocGet st2.usernameToAddress (strLower exC3req.username) = some (normalizeAddress exC3req.walletAddress) ∧
      assocGet st2.addressToUsername (normalizeAddress exC3req.walletAddress) = some exC3req.username ∧
      (exC3extB.dhtStartOk = true → s.dhtStarted = true) :=
  c3_initialize_failure_partial_state emptyState exC3req exC3extB 0 exC3addr (by decide)
    (by decide) (by decide) (by decide) (by decide) (by decide) (by decide)

/-! ### Upsert helper lemmas (messages table) -/

theorem updRow_key (u p i : String) (m : Message) (r : MessageRow) :
    rowKeyMatches u p i (updRow m r) = rowKeyMatches u p i r := rfl

theorem countP_key_map_upd (t : List MessageRow) (u p i : String) (m : Message) :
    (t.map (fun r => if rowKeyMatches u p i r then updRow m r else r)).countP
        (rowKeyMatches u p i) = t.countP (rowKeyMatches u p i) := by
  rw [List.countP_map]
  apply List.countP_congr
  intro r _
  by_cases h : rowKeyMatches u p i r = true
  · simp [Function.comp, h, updRow_key]
  · simp [Function.comp, h]

theorem countP_key_le_one (t : List MessageRow) (u p i : String)
    (hnd : (t.map (fun r => r.id)).Nodup) :
    t.countP (rowKeyMatches u p i) ≤ 1 := by
  have h1 : t.countP (rowKeyMatches u p i) ≤ t.countP (fun r => r.id == i) := by
    apply List.countP_mono_left
    intro r _ hkey
    simp only [rowKeyMatches, Bool.and_eq_true] at hkey
    exact hkey.2
  have h2 : t.countP (fun r => r.id == i) = (t.map (fun r => r.id)).count i := by
    rw [List.count_eq_countP, List.countP_map]
    rfl
  have h3 : (t.map (fun r => r.id)).count i ≤ 1 := List.nodup_iff_count_le_one.mp hnd i
  omega

theorem find?_eq_of_mem_of_countP_le_one {α : Type} (p : α → Bool) (l : List α) (a : α)
    (ha : a ∈ l) (hpa : p a = true) (hle : l.countP p ≤ 1) : l.find? p = some a := by
  induction l with
  | nil => cases ha
  | cons x xs ih =>
    by_cases hx : p x = true
    · rw [List.find?_cons_of_pos _ hx]
      rcases List.mem_cons.mp ha with rfl | hmem
      · rfl
      · exfalso
        have hpos : 0 < xs.countP p := List.countP_pos_iff.mpr ⟨a, hmem, hpa⟩
        have hcons : (x :: xs).countP p = xs.countP p + 1 := List.countP_cons_of_pos _ _ hx
        omega
    · rw [List.find?_cons_of_neg _ (by simpa using hx)]
      rcases List.mem_cons.mp ha with rfl | hmem
      · exact absurd hpa hx
      · apply ih hmem
        have hcons : (x :: xs).countP p = xs.countP p :=
          List.countP_cons_of_neg _ _ (by simpa using hx)
        omega

theorem mem_map_upd_content (t : List MessageRow) (u p i : String) (m : Message) :
    ∀ r ∈ t.map (fun s => if rowKeyMatches u p i s then updRow m s else s),
      rowKeyMatches u p i r = true → r.content = m.content := by
  intro r hr hkey
  rcases List.mem_map.mp hr with ⟨s, _, rfl⟩
  by_cases h : rowKeyMatches u p i s = true
  · simp [h, updRow]
  · rw [if_neg h] at hkey
    exact absurd hkey h

/-! ### C6 -/

/-- C6: two saves that share the (owner, peer, id) triple leave exactly one
row for the triple, and its content is the content of the later save —
redelivery is idempotent. The table is assumed to satisfy the id primary key
(no duplicate ids), and the first save is assumed accepted. -/
theorem c6_save_idempotent_upsert (table t1 : List MessageRow) (u p : String) (m1 m2 : Message)
    (hnd : (table.map (fun r => r.id)).Nodup)
    (hid : m1.id = m2.id)
    (h1 : saveMessage table u p m1 = .ok t1) :
    ∃ t2, saveMessage t1 u p m2 = .ok t2 ∧ tripleCount t2 u p m2.id = 1 ∧
      ∀ r ∈ t2, rowKeyMatches u p m2.id r = true → r.content = m2.content := by
  unfold saveMessage at h1
  by_cases hA : (table.any (rowKeyMatches u p m1.id)) = true
  · rw [if_pos hA] at h1
    simp only [Except.ok.injEq] at h1
    have hcount : t1.countP (rowKeyMatches u p m2.id) = table.countP (rowKeyMatches u p m2.id) := by
      rw [← h1, hid] at *
      exact countP_key_map_upd table u p m2.id m1
    have hpos2 : 0 < table.countP (rowKeyMatches u p m2.id) := by
      rw [← hid]
      rcases List.any_eq_true.mp hA with ⟨r, hr, hkey⟩
      exact List.countP_pos_iff.mpr ⟨r, hr, hkey⟩
    have hany2 : (t1.any (rowKeyMatches u p m2.id)) = true := by
      rcases List.countP_pos_iff.mp (hcount ▸ hpos2) with ⟨r, hr, hkey⟩
      exact List.any_eq_true.mpr ⟨r, hr, hkey⟩
    refine ⟨_, by rw [saveMessage, if_pos hany2], ?_, ?_⟩
    · have hle : table.countP (rowKeyMatches u p m2.id) ≤ 1 := countP_key_le_one table u p m2.id hnd
      unfold tripleCount
      rw [countP_key_map_upd, hcount]
      omega
    · exact mem_map_upd_content t1 u p m2.id m2
  · rw [if_neg hA] at h1
    by_cases hB : (table.any fun r => r.id == m1.id) = true
    · rw [if_pos hB] at h1
      cases h1
    · rw [if_neg hB] at h1
      simp only [Except.ok.injEq] at h1
      have hinsKey : rowKeyMatches u p m2.id (insertRow u p m1) = true := by
        simp [rowKeyMatches, insertRow, hid]
      have hany2 : (t1.any (rowKeyMatches u p m2.id)) = true := by
        refine List.any_eq_true.mpr ⟨insertRow u p m1, ?_, hinsKey⟩
        rw [← h1]
        exact List.mem_append.mpr (Or.inr (List.mem_singleton.mpr rfl))
      have hzero : table.countP (rowKeyMatches u p m2.id) = 0 := by
        rw [List.countP_eq_zero]
        intro r hr hkey
        apply hB
        refine List.any_eq_true.mpr ⟨r, hr, ?_⟩
        simp only [rowKeyMatches, Bool.and_eq_true] at hkey
        rw [hid]
        exact hkey.2
      have hone : t1.countP (rowKeyMatches u p m2.id) = 1 := by
        rw [← h1, List.countP_append, hzero]
        simp [hinsKey]
      refine ⟨_, by rw [saveMessage, if_pos hany2], ?_, ?_⟩
      · unfold tripleCount
        rw [countP_key_map_upd, hone]
      · exact mem_map_upd_content t1 u p m2.id m2

theorem c6_save_idempotent_upsert_witness :
    ∃ t2, saveMessage wT1 "u" "p" wMsg2 = .ok t2 ∧ tripleCount t2 "u" "p" wMsg2.id = 1 ∧
      ∀ r ∈ t2, rowKeyMatches "u" "p" wMsg2.id r = true → r.content = wMsg2.content :=
  c6_save_idempotent_upsert [] wT1 "u" "p" wMsg1 wMsg2 (by decide) (by decide) rfl

/-! ### C10 -/

/-- C10: re-saving an existing (owner, peer, id) row rewrites only content,
is_edited and reactions; the stored timestamp, sender, media_url and is_read
keep their original values (so a read message never flips back to unread),
every non-matching row is untouched, and a fresh insert whose sender is the
literal You gets is_read = 1. -/
theorem c10_resave_preserves_row_fields (table : List MessageRow) (u p : String) (m : Message) :
    ((table.map (fun r => r.id)).Nodup →
      ∀ r ∈ table, rowKeyMatches u p m.id r = true →
        ∃ t2, saveMessage table u p m = .ok t2 ∧
          t2.find? (rowKeyMatches u p m.id) = some (updRow m r) ∧
          (updRow m r).timestamp = r.timestamp ∧ (updRow m r).sender = r.sender ∧
          (updRow m r).mediaUrl = r.mediaUrl ∧ (updRow m r).isRead = r.isRead ∧
          ∀ s ∈ table, rowKeyMatches u p m.id s = false → s ∈ t2) ∧
    ((table.all fun r => !(r.id == m.id)) = true → m.sender = .str "You" →
      ∃ t2, saveMessage table u p m = .ok t2 ∧
        t2 = table ++ [insertRow u p m] ∧ (insertRow u p m).isRead = true) := by
  constructor
  · intro hnd r hr hkey
    have hany : (table.any (rowKeyMatches u p m.id)) = true :=
      List.any_eq_true.mpr ⟨r, hr, hkey⟩
    refine ⟨_, by rw [saveMessage, if_pos hany], ?_, rfl, rfl, rfl, rfl, ?_⟩
    · rw [List.find?_map]
      have hcomp : ((rowKeyMatches u p m.id) ∘ fun s =>
          if rowKeyMatches u p m.id s then updRow m s else s) = rowKeyMatches u p m.id := by
        funext s
        by_cases h : rowKeyMatches u p m.id s = true
        · simp [Function.comp, h, updRow_key]
        · simp [Function.comp, h]
      rw [hcomp]
      have hfind : table.find? (rowKeyMatches u p m.id) = some r :=
        find?_eq_of_mem_of_countP_le_one _ table r hr hkey (countP_key_le_one table u p m.id hnd)
      rw [hfind]
      simp [hkey]
    · intro s hs hskey
      have : (if rowKeyMatches u p m.id s then updRow m s else s) = s := by rw [if_neg (by simp [hskey])]
      rw [← this]
      exact List.mem_map_of_mem _ hs
  · intro hall hyou
    have hanyKey : (table.any (rowKeyMatches u p m.id)) = false := by
      rw [List.any_eq_false]
      intro r hr hkey
      have hid : (r.id == m.id) = true := by
        simp only [rowKeyMatches, Bool.and_eq_true] at hkey
        exact hkey.2
      have := List.all_eq_true.mp hall r hr
      simp [hid] at this
    have hanyId : (table.any fun r => r.id == m.id) = false := by
      rw [List.any_eq_false]
      intro r hr hid
      have := List.all_eq_true.mp hall r hr
      simp [hid] at this
    refine ⟨_, ?_, rfl, ?_⟩
    · rw [saveMessage, if_neg (by simp [hanyKey]), if_neg (by simp [hanyId])]
    · simp [insertRow, hyou, senderIsYou]

/-! ### C2 -/

theorem saveMessage_other_owner_rows (table : List MessageRow) (u p own : String) (m : Message)
    (hne : u ≠ own) :
    ((saveMessage table u p m).toOption.getD table).filter (fun r => r.user == own) =
      table.filter (fun r => r.user == own) := by
  unfold saveMessage
  by_cases hA : (table.any (rowKeyMatches u p m.id)) = true
  · rw [if_pos hA]
    show ((table.map fun r => if rowKeyMatches u p m.id r then updRow m r else r).filter
      (fun r => r.user == own)) = table.filter (fun r => r.user == own)
    rw [List.filter_map]
    have hcomp : ((fun r : MessageRow => r.user == own) ∘ fun r =>
        if rowKeyMatches u p m.id r then updRow m r else r) = fun r : MessageRow => r.user == own := by
      funext r
      by_cases h : rowKeyMatches u p m.id r = true
      · simp [Function.comp, h, updRow]
      · simp [Function.comp, h]
    rw [hcomp]
    have hid : ∀ r ∈ table.filter (fun r : MessageRow => r.user == own),
        (if rowKeyMatches u p m.id r then updRow m r else r) = r := by
      intro r hr
      have hown : (r.user == own) = true := (List.mem_filter.mp hr).2
      have hkey : rowKeyMatches u p m.id r = false := by
        unfold rowKeyMatches
        have hu : (r.user == u) = false := by
          have : r.user = own := eq_of_beq hown
          simp [this]
          exact fun hc => hne hc.symm
        simp [hu]
      rw [if_neg (by simp [hkey])]
    calc (table.filter (fun r : MessageRow => r.user == own)).map
          (fun r => if rowKeyMatches u p m.id r then updRow m r else r)
        = (table.filter (fun r : MessageRow => r.user == own)).map id := List.map_congr_left hid
      _ = table.filter (fun r : MessageRow => r.user == own) := List.map_id _
  · rw [if_neg hA]
    by_cases hB : (table.any fun r => r.id == m.id) = true
    · rw [if_pos hB]
      rfl
    · rw [if_neg hB]
      show ((table ++ [insertRow u p m]).filter (fun r => r.user == own)) =
        table.filter (fun r => r.user == own)
      rw [List.filter_append]
      have hnew : ([insertRow u p m].filter fun r : MessageRow => r.user == own) = [] := by
        have : ((insertRow u p m).user == own) = false := by
          simp [insertRow]
          exact hne
        simp [List.filter, this]
      rw [hnew, List.append_nil]

/-- C2: for a sender session that passed initialization (client present), when
the recipient row marks the sender as blocked, HandleSendMessage
behaves as if sent: it replies with success (message id and timestamp),
appends a You message with status sent to the sender history and persists it,
while producing no transport effect (no key-bundle fetch, no relay send), no
WebSocket event, and no state change for the recipient session or rows. -/
theorem c2_blocked_send_local_only (st : ServerState) (now : Nat) (ext : SendExt)
    (headerWallet : String) (req : SendMessageRequest) (session : ClientSession)
    (recipientAddr : List Nat)
    (hs : assocGet st.sessions (normalizeAddress headerWallet) = some session)
    (hcl : (session.clientAddress == none) = false)
    (hres : hexToAddress (resolveRecipientInput st req.recipientAddress) = some recipientAddr)
    (hb : isContactBlocked st.contacts
      (normalizeAddress (resolveRecipientInput st req.recipientAddress))
      (normalizeAddress session.addr) = true)
    (hneKey : normalizeAddress (resolveRecipientInput st req.recipientAddress) ≠
      normalizeAddress headerWallet)
    (hneOwner : session.addr ≠ normalizeAddress (resolveRecipientInput st req.recipientAddress)) :
    ∃ st3,
      handleSendMessageF st now ext headerWallet req =
        (st3, [], .ok ("msg_" ++ toString now) now "Message sent") ∧
      assocGet st3.sessions (normalizeAddress headerWallet) =
        some { session with messageHistory := historyAppend session.messageHistory (normalizeAddress (resolveRecipientInput st req.recipientAddress)) (blockedSendMessage now req.content) } ∧
      st3.messages = (saveMessage st.messages session.addr (normalizeAddress (resolveRecipientInput st req.recipientAddress)) (blockedSendMessage now req.content)).toOption.getD st.messages ∧
      assocGet st3.sessions (normalizeAddress (resolveRecipientInput st req.recipientAddress)) =
        assocGet st.sessions (normalizeAddress (resolveRecipientInput st req.recipientAddress)) ∧
      st3.messages.filter (fun r =>
          r.user == normalizeAddress (resolveRecipientInput st req.recipientAddress)) =
        st.messages.filter (fun r =>
          r.user == normalizeAddress (resolveRecipientInput st req.recipientAddress)) ∧
      st3.contacts = st.contacts ∧ st3.wsConnections = st.wsConnections ∧
      st3.users = st.users := by
  unfold handleSendMessageF
  rw [hs]
  simp only [hcl, Bool.false_eq_true, if_false]
  simp only [hres, hb]
  rw [if_pos trivial]
  refine ⟨_, rfl, ?_, rfl, ?_, ?_, rfl, rfl, rfl⟩
  · exact assocGet_set_eq st.sessions (normalizeAddress headerWallet) _
  · exact assocGet_set_ne st.sessions (normalizeAddress headerWallet)
      (normalizeAddress (resolveRecipientInput st req.recipientAddress)) _ hneKey
  · exact saveMessage_other_owner_rows st.messages session.addr
      (normalizeAddress (resolveRecipientInput st req.recipientAddress)) _ _ hneOwner

theorem c2_blocked_send_local_only_witness :
    ∃ st3,
      handleSendMessageF exC2st 5 {} "bb" exC2req =
        (st3, [], .ok ("msg_" ++ toString 5) 5 "Message sent") ∧
      assocGet st3.sessions (normalizeAddress "bb") =
        some { wSessionB2 with messageHistory := historyAppend wSessionB2.messageHistory (normalizeAddress (resolveRecipientInput exC2st exC2req.recipientAddress)) (blockedSendMessage 5 exC2req.content) } ∧
      st3.messages = (saveMessage exC2st.messages wSessionB2.addr (normalizeAddress (resolveRecipientInput exC2st exC2req.recipientAddress)) (blockedSendMessage 5 exC2req.content)).toOption.getD exC2st.messages ∧
      assocGet st3.sessions (normalizeAddress (resolveRecipientInput exC2st exC2req.recipientAddress)) =
        assocGet exC2st.sessions (normalizeAddress (resolveRecipientInput exC2st exC2req.recipientAddress)) ∧
      st3.messages.filter (fun r =>
          r.user == normalizeAddress (resolveRecipientInput exC2st exC2req.recipientAddress)) =
        exC2st.messages.filter (fun r =>
          r.user == normalizeAddress (resolveRecipientInput exC2st exC2req.recipientAddress)) ∧
      st3.contacts = exC2st.contacts ∧ st3.wsConnections = exC2st.wsConnections ∧
      st3.users = exC2st.users :=
  c2_blocked_send_local_only exC2st 5 {} "bb" exC2req wSessionB2
    ((hexToAddress "aa").getD []) (by decide) (by decide) (by decide) (by decide) (by decide)
    (by decide)

/-! ### C4 amended theorem -/

theorem inviteUsesOf_increment (db : ChannelDB) (code : String) (u : Int)
    (h : inviteUsesOf db code = some u) :
    inviteUsesOf (incrementInviteUses db code) code = some (u + 1) := by
  unfold inviteUsesOf at h ⊢
  unfold incrementInviteUses
  simp only
  rw [List.find?_map]
  have hcomp : ((fun i : ChannelInviteRow => i.inviteCode == code) ∘ fun i =>
      if i.inviteCode == code then { i with uses := i.uses + 1 } else i) =
      fun i : ChannelInviteRow => i.inviteCode == code := by
    funext i
    by_cases hi : (i.inviteCode == code) = true
    · simp [Function.comp, hi]
    · simp [Function.comp, hi]
  rw [hcomp]
  cases hf : db.invites.find? (fun i => i.inviteCode == code) with
  | none =>
    rw [hf] at h
    cases h
  | some i =>
    rw [hf] at h
    have hi := List.find?_some hf
    simp only at hi
    simp only [Option.map] at h
    simp [hi]
    simp only [Option.some.injEq] at h
    rw [h]
    simp [eq_of_beq hi]

/-- C4 amended: joining a private channel succeeds exactly when the caller is
not already a member, an invite code is supplied, and ValidateChannelInvite
accepts it for that very channel; on success the uses counter of the invite
goes up by exactly one and the membership row is appended — but the increment
is issued as a separate statement before the membership insert, not inside a
transaction with it. -/
theorem c4_private_join_characterization (db : ChannelDB) (now : Nat)
    (userAddr channelId inviteCode : String) (ch : ChannelRow)
    (hcid : channelId ≠ "")
    (hch : db.channels.find? (fun c => c.id == channelId) = some ch)
    (hpriv : ch.ctype = "private") :
    (subscribeSucceeded (handleSubscribeToChannelF db now userAddr channelId inviteCode).2 = true ↔
      ((db.members.any fun m => m.channelId == channelId && m.userAddress == userAddr) = false ∧
       inviteCode ≠ "" ∧ validateChannelInvite db now inviteCode = .ok channelId)) ∧
    (∀ uses0 : Int,
      (db.members.any fun m => m.channelId == channelId && m.userAddress == userAddr) = false →
      inviteCode ≠ "" → validateChannelInvite db now inviteCode = .ok channelId →
      inviteUsesOf db inviteCode = some uses0 →
      (handleSubscribeToChannelF db now userAddr channelId inviteCode).1.members =
        db.members ++ [{ channelId := channelId, userAddress := userAddr, role := "subscriber", joinedAt := now }] ∧
      inviteUsesOf (handleSubscribeToChannelF db now userAddr channelId inviteCode).1 inviteCode =
        some (uses0 + 1)) := by
  have hcidb : (channelId == "") = false := by simpa using hcid
  have hprivb : (ch.ctype == "private") = true := by simp [hpriv]
  by_cases hmem : (db.members.any fun m => m.channelId == channelId && m.userAddress == userAddr) = true
  · constructor
    · unfold handleSubscribeToChannelF
      rw [hch]
      simp [hcidb, hmem, subscribeSucceeded]
    · intro uses0 hmem2 _ _ _
      rw [hmem2] at hmem
      cases hmem
  · have hmemf : (db.members.any fun m => m.channelId == channelId && m.userAddress == userAddr) = false := by
      simpa using hmem
    by_cases hcode : inviteCode = ""
    · constructor
      · unfold handleSubscribeToChannelF
        rw [hch]
        simp [hcidb, hmemf, hprivb, hcode, subscribeSucceeded]
      · intro uses0 _ hcode2 _ _
        exact absurd hcode hcode2
    · have hcodeb : (inviteCode == "") = false := by simpa using hcode
      cases hval : validateChannelInvite db now inviteCode with
      | error e =>
        constructor
        · unfold handleSubscribeToChannelF
          rw [hch, hval]
          simp [hcidb, hmemf, hprivb, hcodeb, subscribeSucceeded, hval]
        · intro uses0 _ _ hval2 _
          simp at hval2
      | ok cid2 =>
        by_cases hc2 : cid2 = channelId
        · subst hc2
          have hc2b : (cid2 != cid2) = false := by simp
          have hadd : (handleSubscribeToChannelF db now userAddr cid2 inviteCode) =
              ({ incrementInviteUses db inviteCode with
                  members := db.members ++ [{ channelId := cid2, userAddress := userAddr, role := "subscriber", joinedAt := now }],
                  channels := (incrementInviteUses db inviteCode).channels.map (fun c =>
                    if c.id == cid2 then { c with subscriberCount := c.subscriberCount + 1 } else c) },
                SubscribeResult.ok "Successfully subscribed to channel") := by
            unfold handleSubscribeToChannelF addChannelMember
            rw [hch, hval]
            simp [hcidb, hmemf, hprivb, hcodeb, incrementInviteUses]
          constructor
          · rw [hadd]
            simp [subscribeSucceeded, hmemf, hcode]
          · intro uses0 _ _ _ huses
            rw [hadd]
            refine ⟨rfl, ?_⟩
            have := inviteUsesOf_increment db inviteCode uses0 huses
            unfold inviteUsesOf at this ⊢
            simpa using this
        · have hc2b : (cid2 != channelId) = true := by simpa using hc2
          constructor
          · unfold handleSubscribeToChannelF
            rw [hch, hval]
            simp [hcidb, hmemf, hprivb, hcodeb, hc2b, subscribeSucceeded, hc2, hcode]
          · intro uses0 _ _ hval2 _
            exact absurd (Except.ok.inj hval2) hc2

theorem c10_resave_preserves_row_fields_witness :
    ∃ t2, saveMessage wT1 "u" "p" wMsg2 = .ok t2 ∧
      t2.find? (rowKeyMatches "u" "p" wMsg2.id) = some (updRow wMsg2 wRow1) ∧
      (updRow wMsg2 wRow1).timestamp = wRow1.timestamp ∧
      (updRow wMsg2 wRow1).sender = wRow1.sender ∧
      (updRow wMsg2 wRow1).mediaUrl = wRow1.mediaUrl ∧
      (updRow wMsg2 wRow1).isRead = wRow1.isRead ∧
      ∀ s ∈ wT1, rowKeyMatches "u" "p" wMsg2.id s = false → s ∈ t2 :=
  (c10_resave_preserves_row_fields wT1 "u" "p" wMsg2).1 (by decide) wRow1 (by decide) (by decide)

theorem c4_private_join_characterization_witness :
    (handleSubscribeToChannelF exC4db2 0 "u2" "c1" "x").1.members =
      exC4db2.members ++ [{ channelId := "c1", userAddress := "u2", role := "subscriber", joinedAt := 0 }] ∧
    inviteUsesOf (handleSubscribeToChannelF exC4db2 0 "u2" "c1" "x").1 "x" = some (0 + 1) :=
  (c4_private_join_characterization exC4db2 0 "u2" "c1" "x" exC4ch (by decide) (by decide)
    (by decide)).2 0 (by decide) (by decide) rfl (by decide)

/-! ### C5 amended theorem -/

theorem countP_filter_split {α : Type} (p q : α → Bool) (l : List α) :
    (l.filter fun a => !(q a)).countP p + (l.filter q).countP p = l.countP p := by
  induction l with
  | nil => rfl
  | cons x xs ih =>
    by_cases hx : q x = true <;> by_cases hp : p x = true <;>
      simp [List.filter_cons, hx, hp, List.countP_cons] <;> omega

theorem countP_le_one_of_key {α β : Type} (f : α → β) (b : β) (l : List α) (p : α → Bool)
    (hnd : (l.map f).Nodup) (hp : ∀ a, p a = true → f a = b) :
    l.countP p ≤ 1 := by
  induction l with
  | nil => simp
  | cons x xs ih =>
    rw [List.map_cons, List.nodup_cons] at hnd
    by_cases hx : p x = true
    · rw [List.countP_cons_of_pos _ _ hx]
      have hzero : xs.countP p = 0 := by
        rw [List.countP_eq_zero]
        intro a ha hpa
        apply hnd.1
        rw [hp x hx, ← hp a hpa]
        exact List.mem_map_of_mem f ha
      omega
    · rw [List.countP_cons_of_neg _ _ (by simpa using hx)]
      exact ih hnd.2

theorem countP_memberKey_le_one (ms : List ChannelMemberRow) (cid u : String)
    (hnd : (ms.map fun m => (m.channelId, m.userAddress)).Nodup) :
    ms.countP (fun m => m.channelId == cid && m.userAddress == u) ≤ 1 := by
  apply countP_le_one_of_key (fun m => (m.channelId, m.userAddress)) (cid, u) ms _ hnd
  intro m hp
  simp only [Bool.and_eq_true] at hp
  rw [eq_of_beq hp.1, eq_of_beq hp.2]

theorem applyMemberOp_preserves (db : ChannelDB) (op : MemberOp)
    (hflag : opNoInjectedFailure op = true)
    (hcons : countConsistent db) (hnd : (memberKeys db).Nodup) :
    countConsistent (applyMemberOp db op) ∧ (memberKeys (applyMemberOp db op)).Nodup := by
  cases op with
  | add cid u role t f =>
    have hf : f = false := by simpa [opNoInjectedFailure] using hflag
    subst hf
    by_cases hmem : (db.members.any fun m => m.channelId == cid && m.userAddress == u) = true
    · have hred : applyMemberOp db (.add cid u role t false) = db := by
        simp [applyMemberOp, addChannelMember, hmem]
      rw [hred]
      exact ⟨hcons, hnd⟩
    · have hred : applyMemberOp db (.add cid u role t false) =
          { db with
            members := db.members ++ [{ channelId := cid, userAddress := u, role := role, joinedAt := t }],
            channels := db.channels.map (fun c =>
              if c.id == cid then { c with subscriberCount := c.subscriberCount + 1 } else c) } := by
        simp [applyMemberOp, addChannelMember, hmem]
      rw [hred]
      constructor
      · intro cc hcc
        rcases List.mem_map.mp hcc with ⟨c, hc, rfl⟩
        have hbase := hcons c hc
        unfold countMembersFor at hbase ⊢
        by_cases hid : (c.id == cid) = true
        · have hcid : c.id = cid := eq_of_beq hid
          rw [if_pos hid]
          simp only [List.countP_append]
          have hsingle : ([({ channelId := cid, userAddress := u, role := role, joinedAt := t } : ChannelMemberRow)].countP
              fun m => m.channelId == c.id) = 1 := by
            simp [List.countP_cons, hcid]
          rw [hsingle]
          push_cast
          omega
        · rw [if_neg hid]
          simp only [List.countP_append]
          have hzero : ([({ channelId := cid, userAddress := u, role := role, joinedAt := t } : ChannelMemberRow)].countP
              fun m => m.channelId == c.id) = 0 := by
            have hne : (cid == c.id) = false := by
              apply beq_eq_false_iff_ne.mpr
              intro h
              exact hid (beq_iff_eq.mpr h.symm)
            simp [List.countP_cons, hne]
          rw [hzero]
          omega
      · simp only [memberKeys]
        rw [List.map_append]
        rw [List.nodup_append]
        refine ⟨hnd, List.nodup_singleton _, ?_⟩
        intro x hx
        simp only [List.map_cons, List.map_nil, List.mem_singleton]
        intro hxa
        rcases List.mem_map.mp hx with ⟨m, hm, hkey⟩
        apply hmem
        refine List.any_eq_true.mpr ⟨m, hm, ?_⟩
        have : ((m.channelId, m.userAddress) : String × String) = (cid, u) := by
          rw [hkey, hxa]
        have h1 : m.channelId = cid := congrArg Prod.fst this
        have h2 : m.userAddress = u := congrArg Prod.snd this
        simp [h1, h2]
  | remove cid u f =>
    have hf : f = false := by simpa [opNoInjectedFailure] using hflag
    subst hf
    by_cases hlen : ((db.members.filter fun m => !(m.channelId == cid && m.userAddress == u)).length
        == db.members.length) = true
    · have hred : applyMemberOp db (.remove cid u false) = db := by
        simp only [applyMemberOp, removeChannelMember]
        rw [if_pos hlen]
      rw [hred]
      exact ⟨hcons, hnd⟩
    · have hred : applyMemberOp db (.remove cid u false) =
          { db with
            members := db.members.filter fun m => !(m.channelId == cid && m.userAddress == u),
            channels := db.channels.map (fun c =>
              if c.id == cid && c.subscriberCount > 0 then { c with subscriberCount := c.subscriberCount - 1 } else c) } := by
        simp only [applyMemberOp, removeChannelMember]
        rw [if_neg hlen]
        rfl
      rw [hred]
      have hex : ∃ m ∈ db.members, (m.channelId == cid && m.userAddress == u) = true := by
        by_contra hno
        push_neg at hno
        have hself : (db.members.filter fun m => !(m.channelId == cid && m.userAddress == u)) =
            db.members := by
          rw [List.filter_eq_self]
          intro m hm
          have := hno m hm
          simp [this]
        exact hlen (by rw [hself]; simp)
      have hone : db.members.countP (fun m => m.channelId == cid && m.userAddress == u) = 1 := by
        rcases hex with ⟨m, hm, hp⟩
        have hpos : 0 < db.members.countP (fun m => m.channelId == cid && m.userAddress == u) :=
          List.countP_pos_iff.mpr ⟨m, hm, hp⟩
        have hle := countP_memberKey_le_one db.members cid u hnd
        omega
      constructor
      · intro cc hcc
        rcases List.mem_map.mp hcc with ⟨c, hc, rfl⟩
        have hbase := hcons c hc
        unfold countMembersFor at hbase ⊢
        have hsplit := countP_filter_split (fun m : ChannelMemberRow => m.channelId == c.id)
          (fun m => m.channelId == cid && m.userAddress == u) db.members
        by_cases hid : (c.id == cid) = true
        · have hcid : c.id = cid := eq_of_beq hid
          have hfiltered : ((db.members.filter fun m => m.channelId == cid && m.userAddress == u).countP
              fun m => m.channelId == c.id) =
              (db.members.filter fun m => m.channelId == cid && m.userAddress == u).length := by
            rw [← List.countP_true]
            apply List.countP_congr
            intro m hm
            have hpm := (List.mem_filter.mp hm).2
            simp only [Bool.and_eq_true] at hpm
            have : m.channelId = cid := eq_of_beq hpm.1
            simp [this, hcid]
          have hlen1 : (db.members.filter fun m => m.channelId == cid && m.userAddress == u).length = 1 := by
            rw [← List.countP_eq_length_filter]
            exact hone
          have hcount : ((db.members.filter fun m => !(m.channelId == cid && m.userAddress == u)).countP
              fun m => m.channelId == c.id) =
              (db.members.countP fun m => m.channelId == c.id) - 1 := by
            omega
          have hge : 1 ≤ db.members.countP fun m => m.channelId == c.id := by
            have hmono : (db.members.countP fun m => m.channelId == cid && m.userAddress == u) ≤
                db.members.countP fun m => m.channelId == c.id := by
              apply List.countP_mono_left
              intro m _ hp
              simp only [Bool.and_eq_true] at hp
              have : m.channelId = cid := eq_of_beq hp.1
              simp [this, hcid]
            omega
          have hposcount : (0 : Int) < c.subscriberCount := by
            rw [hbase]
            exact_mod_cast hge
          have hcond : (c.id == cid && decide (c.subscriberCount > 0)) = true := by
            simp [hid, hposcount]
          rw [if_pos hcond, hcount, hbase]
          push_cast
          omega
        · have hcond : (c.id == cid && decide (c.subscriberCount > 0)) = false := by
            simp [hid]
          rw [if_neg (by simp [hcond])]
          dsimp only
          have hzero : ((db.members.filter fun m => m.channelId == cid && m.userAddress == u).countP
              fun m => m.channelId == c.id) = 0 := by
            rw [List.countP_eq_zero]
            intro m hm hp
            have hpm := (List.mem_filter.mp hm).2
            simp only [Bool.and_eq_true] at hpm
            have h1 : m.channelId = cid := eq_of_beq hpm.1
            have h2 : m.channelId = c.id := eq_of_beq hp
            exact hid (by simp [← h1, h2])
          omega
      · show ((db.members.filter _).map fun m => (m.channelId, m.userAddress)).Nodup
        exact hnd.sublist (List.Sublist.map _ (List.filter_sublist db.members))

/-- C5 amended: after any sequence of AddChannelMember and RemoveChannelMember
operations in which every standalone subscriber_count statement succeeds,
each channel row still stores a subscriber_count equal to its number of
membership rows; the counter update is a second separate statement, not part
of one transaction with the insert or delete, so an update failure (which the
code only logs) breaks the invariant, as the counterexample shows. -/
theorem c5_subscriber_count_invariant (db : ChannelDB) (ops : List MemberOp)
    (hnd : (memberKeys db).Nodup) (hcons : countConsistent db)
    (hnofail : ∀ op ∈ ops, opNoInjectedFailure op = true) :
    countConsistent (applyMemberOps db ops) := by
  induction ops generalizing db with
  | nil => exact hcons
  | cons op rest ih =>
    have hstep := applyMemberOp_preserves db op (hnofail op (List.mem_cons_self op rest)) hcons hnd
    exact ih (applyMemberOp db op) hstep.2 hstep.1 (fun o ho => hnofail o (List.mem_cons_of_mem op ho))

theorem c5_subscriber_count_invariant_witness :
    countConsistent (applyMemberOps exC5db exC5ops) :=
  c5_subscriber_count_invariant exC5db exC5ops (by decide)
    (by unfold countConsistent; decide) (by decide)

/-! ### Offline encryption round trip (C7) -/

theorem dhShared_pub_comm (x y : Nat) : dhShared x (dhPub y) = dhShared y (dhPub x) := by
  unfold dhShared dhPub
  conv_lhs => rw [← Nat.pow_mod, ← pow_mul]
  conv_rhs => rw [← Nat.pow_mod, ← pow_mul]
  rw [Nat.mul_comm]

theorem natOfB64_b64OfNat (n : Nat) : natOfB64 (b64OfNat n) = n := by
  unfold natOfB64 b64OfNat
  exact Nat.ofDigits_digits 64 n

theorem bytesOfB64_b64OfBytes (l : List Nat) : bytesOfB64 (b64OfBytes l) = some l := by
  induction l with
  | nil => rfl
  | cons b rest ih => simp [b64OfBytes, bytesOfB64, ih, Nat.mod_add_div]

theorem maskBytes_involutive (key : List Nat) (nonce : Nat) (l : List Nat) (i : Nat) :
    maskBytes key nonce i (maskBytes key nonce i l) = l := by
  induction l generalizing i with
  | nil => rfl
  | cons b rest ih => simp [maskBytes, Nat.xor_cancel_right, ih]

theorem openAESGCM_sealAESGCM (key : List Nat) (nonce : Nat) (pt : List Nat) :
    openAESGCM key nonce (sealAESGCM key nonce pt) = some pt := by
  simp [openAESGCM, sealAESGCM, List.getLast?_concat, List.dropLast_concat, maskBytes_involutive]

/-- C7: for every plaintext, sender session holding the recipient key bundle in
its cache, and recipient session whose identity, signed prekey and one-time
prekeys match that bundle, EncryptOfflineMessage followed by
DecryptOfflineMessage returns exactly the original plaintext. -/
theorem c7_offline_roundtrip
    (st : ServerState) (ephPriv nonceVal : Nat) (sa ra : String)
    (content : List Nat) (mid : String) (ts : Int)
    (sS sR : ClientSession) (idA idB : X3DHIdentity) (spk : SignedPreKey)
    (saB raB : List Nat) (bundle : KeyBundle)
    (h1 : assocGet st.sessions sa = some sS)
    (h2 : assocGet st.sessions ra = some sR)
    (h3 : (sS.clientAddress == none) = false)
    (h4 : (sR.clientAddress == none) = false)
    (h5 : sS.x3dhIdentity = some idA)
    (h6 : sR.x3dhIdentity = some idB)
    (h7 : parseAddress sa = some saB)
    (h8 : parseAddress ra = some raB)
    (h9 : assocGet sS.cachedBundles raB = some bundle)
    (h10 : sR.signedPreKey = some spk)
    (h11 : bundle.identityKey = identityPub idB)
    (h12 : bundle.signedPreKeyPub = dhPub spk.priv)
    (h13 : bundle.signedPreKeyId = spk.keyId)
    (h14 : bundle.oneTimePreKeys = sR.oneTimePreKeys.map (fun q => (q.1, dhPub q.2)))
    (h15 : sR.oneTimePreKeys ≠ []) :
    ∃ env, encryptOfflineMessageF st ephPriv nonceVal sa ra content mid ts = some env ∧
      decryptOfflineMessageF st ra env = some content := by
  obtain ⟨oid, opriv, rest, hopk⟩ : ∃ oid opriv rest,
      sR.oneTimePreKeys = (oid, opriv) :: rest := by
    cases hc : sR.oneTimePreKeys with
    | nil => exact absurd hc h15
    | cons q qs =>
      obtain ⟨qa, qb⟩ := q
      exact ⟨qa, qb, qs, rfl⟩
  have hbun : bundle.oneTimePreKeys =
      (oid, dhPub opriv) :: rest.map (fun q => (q.1, dhPub q.2)) := by
    rw [h14, hopk]
    rfl
  have hinit : x3dhInitiator saB idA ephPriv bundle =
      some ([dhShared idA.dhPriv bundle.signedPreKeyPub,
             dhShared ephPriv bundle.identityKey,
             dhShared ephPriv bundle.signedPreKeyPub,
             dhShared ephPriv (dhPub opriv)],
            dhPub ephPriv,
            { senderAddress := saB, identityKey := identityPub idA,
              ephemeralKey := dhPub ephPriv, usedSignedPreKeyId := bundle.signedPreKeyId,
              usedOneTimePreKeyId := oid }) := by
    unfold x3dhInitiator
    rw [hbun]
  have e1 : dhShared spk.priv (identityPub idA) =
      dhShared idA.dhPriv bundle.signedPreKeyPub := by
    rw [h12, identityPub, dhShared_pub_comm]
  have e2 : dhShared idB.dhPriv (dhPub ephPriv) =
      dhShared ephPriv bundle.identityKey := by
    rw [h11, identityPub, dhShared_pub_comm]
  have e3 : dhShared spk.priv (dhPub ephPriv) =
      dhShared ephPriv bundle.signedPreKeyPub := by
    rw [h12, dhShared_pub_comm]
  have e4 : dhShared opriv (dhPub ephPriv) = dhShared ephPriv (dhPub opriv) :=
    dhShared_pub_comm opriv ephPriv
  have hresp : x3dhResponder idB spk sR.oneTimePreKeys
      { senderAddress := saB,
        identityKey := natOfB64 (b64OfNat (identityPub idA)),
        ephemeralKey := natOfB64 (b64OfNat (dhPub ephPriv)),
        usedSignedPreKeyId := bundle.signedPreKeyId,
        usedOneTimePreKeyId := oid } =
      some [dhShared idA.dhPriv bundle.signedPreKeyPub,
            dhShared ephPriv bundle.identityKey,
            dhShared ephPriv bundle.signedPreKeyPub,
            dhShared ephPriv (dhPub opriv)] := by
    unfold x3dhResponder
    simp only [natOfB64_b64OfNat, h13, bne_self_eq_false, Bool.false_eq_true, if_false,
      hopk, List.lookup, beq_self_eq_true, if_true]
    rw [e1, e2, e3, e4]
  refine ⟨{ senderAddress := sa,
            senderIdentityKey := b64OfNat (identityPub idA),
            ephemeralKey := b64OfNat (dhPub ephPriv),
            usedSignedPreKeyId := bundle.signedPreKeyId,
            usedOneTimePreKeyId := oid,
            ciphertext := b64OfBytes (sealAESGCM
              [dhShared idA.dhPriv bundle.signedPreKeyPub,
               dhShared ephPriv bundle.identityKey,
               dhShared ephPriv bundle.signedPreKeyPub,
               dhShared ephPriv (dhPub opriv)] nonceVal content),
            nonce := b64OfNat nonceVal,
            messageId := mid, timestamp := ts }, ?_, ?_⟩
  · simp [encryptOfflineMessageF, h1, h3, h5, h7, h8, h9, hinit]
  · simp only [decryptOfflineMessageF, h2, h4, h6, h7, h10]
    rw [hresp]
    simp only [bytesOfB64_b64OfBytes, natOfB64_b64OfNat]
    exact openAESGCM_sealAESGCM _ nonceVal content

theorem c7_offline_roundtrip_witness :
    ∃ env, encryptOfflineMessageF exC7st 13 99 aHex bHex exC7content "m7" 1700 = some env ∧
      decryptOfflineMessageF exC7st bHex env = some exC7content :=
  c7_offline_roundtrip exC7st 13 99 aHex bHex exC7content "m7" 1700
    wSessA7 wSessB7 ⟨3⟩ ⟨5⟩ ⟨1, 7⟩
    ((parseAddress aHex).getD []) ((parseAddress bHex).getD []) wBundleB
    rfl rfl rfl rfl rfl rfl rfl rfl rfl rfl rfl rfl rfl rfl (by decide)

end Zentalk
